import Mathlib

/-!
# ytdl-cli: link parsing, file names, batch reading and download dispatch

A shallow embedding of `src/utils/parse.js`, `src/utils/api.js` and the main
action of `src/index.js`.

JavaScript strings are sequences of UTF-16 code units; they are modelled as
`List Nat`, one number per code unit, so that `length`, `substring`, `trim`,
`split` and the regular expressions of the source act on the same units as
they do in the engine.  `js "..."` is the code-unit sequence of a literal.
-/

namespace Ytdl

/-! ## JavaScript strings -/

/-- A JavaScript string: its UTF-16 code units. -/
abbrev JSString := List Nat

/-- UTF-16 code units of one Unicode scalar value. -/
def utf16Units (cp : Nat) : List Nat :=
  if cp < 0x10000 then [cp]
  else [0xD800 + (cp - 0x10000) / 0x400, 0xDC00 + (cp - 0x10000) % 0x400]

/-- The code units of a string literal. -/
def js (s : String) : JSString :=
  (s.toList.map Char.toNat).flatMap utf16Units

/-- ECMAScript `WhiteSpace` and `LineTerminator` code points, the ones
`String.prototype.trim` strips. -/
def isWhiteSpace (c : Nat) : Bool :=
  c == 0x09 || c == 0x0A || c == 0x0B || c == 0x0C || c == 0x0D || c == 0x20 ||
  c == 0xA0 || c == 0x1680 || (0x2000 ≤ c && c ≤ 0x200A) || c == 0x2028 ||
  c == 0x2029 || c == 0x202F || c == 0x205F || c == 0x3000 || c == 0xFEFF

/-- `s.trimEnd()`. -/
def trimEnd (s : JSString) : JSString :=
  (s.reverse.dropWhile isWhiteSpace).reverse

/-- `s.trim()`. -/
def trim (s : JSString) : JSString :=
  trimEnd (s.dropWhile isWhiteSpace)

/-- `s.substring(0, n)` for a natural number `n`. -/
def substring0 (s : JSString) (n : Nat) : JSString :=
  s.take n

/-- The part of `s` after the first occurrence of `needle`, if there is one. -/
def afterFirst (needle : JSString) : JSString → Option JSString
  | [] => if needle = [] then some [] else none
  | c :: s =>
    if needle.isPrefixOf (c :: s) then some ((c :: s).drop needle.length)
    else afterFirst needle s

/-- `s.includes(needle)`, also the test of a regular expression that is a
plain literal. -/
def includes (s needle : JSString) : Bool :=
  (afterFirst needle s).isSome

/-- `s.split(sep)` for a one-unit separator: the pieces between separators,
always at least one piece. -/
def splitOn1 (sep : Nat) : JSString → List JSString
  | [] => [[]]
  | c :: s =>
    if c = sep then [] :: splitOn1 sep s
    else
      match splitOn1 sep s with
      | [] => [[c]]
      | p :: ps => (c :: p) :: ps

/-- ASCII digit `0`-`9`. -/
def isDigit (c : Nat) : Bool := 0x30 ≤ c && c ≤ 0x39

/-- ASCII letter. -/
def isAlpha (c : Nat) : Bool := (0x41 ≤ c && c ≤ 0x5A) || (0x61 ≤ c && c ≤ 0x7A)

/-- ASCII lower-casing of one unit. -/
def asciiLower (c : Nat) : Nat := if 0x41 ≤ c && c ≤ 0x5A then c + 0x20 else c

/-- Value of an ASCII hex digit. -/
def hexVal (c : Nat) : Option Nat :=
  if isDigit c then some (c - 0x30)
  else if 0x41 ≤ c && c ≤ 0x46 then some (c - 0x41 + 10)
  else if 0x61 ≤ c && c ≤ 0x66 then some (c - 0x61 + 10)
  else none

/-- Decimal digits of a number, as code units. -/
def decimal (n : Nat) : JSString := (Nat.toDigits 10 n).map Char.toNat

/-- Value of a digit string in the given radix, `none` when a unit is not a
digit of that radix. -/
def parseRadix (radix : Nat) (s : List Nat) : Option Nat :=
  s.foldl (fun acc c =>
    match acc, hexVal c with
    | some a, some d => if d < radix then some (a * radix + d) else none
    | _, _ => none) (some 0)

/-! ## The platform: errors, text encodings -/

/-- The exceptions the program can meet, with their `message`. -/
inductive JSError where
  | typeError (message : JSString)
  | uriError (message : JSString)
  | error (message : JSString)
  deriving DecidableEq, Repr

deriving instance DecidableEq for Except

/-- `error.message`. -/
def JSError.message : JSError → JSString
  | .typeError m => m
  | .uriError m => m
  | .error m => m

/-- Conversion of a JavaScript string to scalar values (Web IDL `USVString`):
a surrogate pair becomes its code point and a lone surrogate U+FFFD.  `high`
is a pending high surrogate. -/
def toUSVFrom (high : Option Nat) : JSString → List Nat
  | [] => match high with
    | some _ => [0xFFFD]
    | none => []
  | c :: s =>
    match high with
    | some h =>
      if 0xDC00 ≤ c && c ≤ 0xDFFF then
        (0x10000 + (h - 0xD800) * 0x400 + (c - 0xDC00)) :: toUSVFrom none s
      else if 0xD800 ≤ c && c ≤ 0xDBFF then 0xFFFD :: toUSVFrom (some c) s
      else 0xFFFD :: c :: toUSVFrom none s
    | none =>
      if 0xD800 ≤ c && c ≤ 0xDBFF then toUSVFrom (some c) s
      else if 0xDC00 ≤ c && c ≤ 0xDFFF then 0xFFFD :: toUSVFrom none s
      else c :: toUSVFrom none s

/-- Scalar values of a JavaScript string. -/
def toUSV (s : JSString) : List Nat := toUSVFrom none s

/-- The JavaScript string of a list of scalar values. -/
def fromUSV (cps : List Nat) : JSString := cps.flatMap utf16Units

/-- UTF-8 bytes of one scalar value. -/
def utf8Encode (cp : Nat) : List Nat :=
  if cp < 0x80 then [cp]
  else if cp < 0x800 then [0xC0 + cp / 0x40, 0x80 + cp % 0x40]
  else if cp < 0x10000 then [0xE0 + cp / 0x1000, 0x80 + cp / 0x40 % 0x40, 0x80 + cp % 0x40]
  else [0xF0 + cp / 0x40000 % 8, 0x80 + cp / 0x1000 % 0x40, 0x80 + cp / 0x40 % 0x40,
        0x80 + cp % 0x40]

/-- State of the UTF-8 decoder inside a multi-byte sequence. -/
structure Utf8State where
  needed : Nat
  codePoint : Nat
  lower : Nat
  upper : Nat

/-- The UTF-8 decoder on a byte met outside a sequence: what it emits and
the sequence it opens. -/
def utf8Lead (b : Nat) : List Nat × Option Utf8State :=
  if b ≤ 0x7F then ([b], none)
  else if 0xC2 ≤ b && b ≤ 0xDF then ([], some ⟨1, b % 0x20, 0x80, 0xBF⟩)
  else if 0xE0 ≤ b && b ≤ 0xEF then
    ([], some ⟨2, b % 0x10, if b = 0xE0 then 0xA0 else 0x80, if b = 0xED then 0x9F else 0xBF⟩)
  else if 0xF0 ≤ b && b ≤ 0xF4 then
    ([], some ⟨3, b % 8, if b = 0xF0 then 0x90 else 0x80, if b = 0xF4 then 0x8F else 0xBF⟩)
  else ([0xFFFD], none)

/-- The Encoding Standard's "UTF-8 decode without BOM": malformed input
yields U+FFFD, and the byte that broke a sequence is read again. -/
def utf8DecodeFrom (st : Option Utf8State) : List Nat → List Nat
  | [] => match st with
    | some _ => [0xFFFD]
    | none => []
  | b :: bs =>
    match st with
    | none => (utf8Lead b).1 ++ utf8DecodeFrom (utf8Lead b).2 bs
    | some s =>
      if s.lower ≤ b && b ≤ s.upper then
        if s.needed ≤ 1 then (s.codePoint * 0x40 + b % 0x40) :: utf8DecodeFrom none bs
        else utf8DecodeFrom (some ⟨s.needed - 1, s.codePoint * 0x40 + b % 0x40, 0x80, 0xBF⟩) bs
      else 0xFFFD :: ((utf8Lead b).1 ++ utf8DecodeFrom (utf8Lead b).2 bs)

/-- UTF-8 decode without BOM, from the start of a byte sequence. -/
def utf8Decode (bytes : List Nat) : List Nat := utf8DecodeFrom none bytes

/-- Upper-case hex digit of a value below 16. -/
def hexDigit (n : Nat) : Nat := if n < 10 then 0x30 + n else 0x41 + (n - 10)

/-- Percent-encoding of one byte. -/
def percentEncodeByte (b : Nat) : List Nat := [0x25, hexDigit (b / 16 % 16), hexDigit (b % 16)]

/-- UTF-8 percent-encoding of a code point with a percent-encode set. -/
def utf8PercentEncode (inSet : Nat → Bool) (cp : Nat) : List Nat :=
  if inSet cp then (utf8Encode cp).flatMap percentEncodeByte else [cp]

/-- Percent-decoding of a byte sequence: `%XY` with two hex digits becomes
one byte, everything else is kept.  `skip` counts the units of an escape
still to be passed over. -/
def percentDecodeFrom (skip : Nat) : List Nat → List Nat
  | [] => []
  | c :: s =>
    match skip with
    | k + 1 => percentDecodeFrom k s
    | 0 =>
      if c = 0x25 then
        match s with
        | h :: l :: _ =>
          match hexVal h, hexVal l with
          | some a, some b => (16 * a + b) :: percentDecodeFrom 2 s
          | _, _ => c :: percentDecodeFrom 0 s
        | _ => c :: percentDecodeFrom 0 s
      else c :: percentDecodeFrom 0 s

/-- Percent-decoding. -/
def percentDecode (bytes : List Nat) : List Nat := percentDecodeFrom 0 bytes

/-- The C0 control percent-encode set. -/
def c0ControlSet (c : Nat) : Bool := c ≤ 0x1F || 0x7E < c

/-- The fragment percent-encode set. -/
def fragmentSet (c : Nat) : Bool :=
  c0ControlSet c || c == 0x20 || c == 0x22 || c == 0x3C || c == 0x3E || c == 0x60

/-- The query percent-encode set. -/
def querySet (c : Nat) : Bool :=
  c0ControlSet c || c == 0x20 || c == 0x22 || c == 0x23 || c == 0x3C || c == 0x3E

/-- The special-query percent-encode set. -/
def specialQuerySet (c : Nat) : Bool := querySet c || c == 0x27

/-- The path percent-encode set. -/
def pathSet (c : Nat) : Bool :=
  querySet c || c == 0x3F || c == 0x5E || c == 0x60 || c == 0x7B || c == 0x7D

/-- The userinfo percent-encode set. -/
def userinfoSet (c : Nat) : Bool :=
  pathSet c || c == 0x2F || c == 0x3A || c == 0x3B || c == 0x3D || c == 0x40 ||
  (0x5B ≤ c && c ≤ 0x5D) || c == 0x7C

/-- The component percent-encode set. -/
def componentSet (c : Nat) : Bool :=
  userinfoSet c || (0x24 ≤ c && c ≤ 0x26) || c == 0x2B || c == 0x2C

/-- The application/x-www-form-urlencoded percent-encode set. -/
def urlencodedSet (c : Nat) : Bool :=
  componentSet c || c == 0x21 || (0x27 ≤ c && c ≤ 0x29) || c == 0x7E

/-! ## The platform: `URL` and `URLSearchParams`

`new URL(s)` follows the basic URL parser of the WHATWG URL Standard, run
without a base URL and in UTF-8.  Each state of that parser is a function
below.  Two parts of host parsing are outside this model, and the parser
model reports failure for them where the platform may succeed: IPv6
literals (a host in square brackets) and domains that need IDNA processing
(a code point above U+007F, or a label that starts with `xn--`).  No
statement below rests on the parser model for such a host: what is said of
foreign hosts is said of every URL record. -/

/-- A parsed host: a domain, an empty or non-special host kept as text, or an
IPv4 address. -/
inductive Host where
  | name (s : List Nat)
  | ipv4 (address : Nat)
  deriving DecidableEq, Repr

/-- A URL path: a list of segments, or the single string of a URL that cannot
be a base (such as `mailto:x`). -/
inductive URLPath where
  | list (segments : List (List Nat))
  | text (s : List Nat)
  deriving DecidableEq, Repr

/-- A URL record. -/
structure URL where
  scheme : List Nat
  username : List Nat
  password : List Nat
  host : Option Host
  port : Option Nat
  path : URLPath
  query : Option (List Nat)
  fragment : Option (List Nat)
  deriving DecidableEq, Repr

/-- The special schemes. -/
def isSpecialScheme (scheme : List Nat) : Bool :=
  scheme ∈ [js "ftp", js "file", js "http", js "https", js "ws", js "wss"]

/-- Default port of a special scheme. -/
def defaultPort (scheme : List Nat) : Option Nat :=
  if scheme = js "ftp" then some 21
  else if scheme = js "http" then some 80
  else if scheme = js "https" then some 443
  else if scheme = js "ws" then some 80
  else if scheme = js "wss" then some 443
  else none

/-- Forbidden host code points. -/
def isForbiddenHostCodePoint (c : Nat) : Bool :=
  c == 0x00 || c == 0x09 || c == 0x0A || c == 0x0D || c == 0x20 || c == 0x22 || c == 0x23 ||
  c == 0x2F || c == 0x3A || c == 0x3C || c == 0x3E || c == 0x3F || c == 0x40 || c == 0x5B ||
  c == 0x5C || c == 0x5D || c == 0x5E || c == 0x7C

/-- Forbidden domain code points. -/
def isForbiddenDomainCodePoint (c : Nat) : Bool :=
  isForbiddenHostCodePoint c || c ≤ 0x1F || c == 0x25 || c == 0x7F

/-- The IPv4 number parser: decimal, octal after a leading `0`, hexadecimal
after `0x`. -/
def parseIPv4Number (s : List Nat) : Option Nat :=
  match s with
  | [] => none
  | [c] => parseRadix 10 [c]
  | c :: d :: r =>
    if c = 0x30 && (d = 0x78 || d = 0x58) then parseRadix 16 r
    else if c = 0x30 then parseRadix 8 (d :: r)
    else parseRadix 10 (c :: d :: r)

/-- The parts of a host between dots, without the empty part that a trailing
dot leaves behind (kept when it is the only part). -/
def ipv4Parts (s : List Nat) : List (List Nat) :=
  let parts := splitOn1 0x2E s
  if parts.getLast? = some [] && 1 < parts.length then parts.dropLast else parts

/-- The "ends in a number" checker. -/
def endsInANumber (s : List Nat) : Bool :=
  let parts := splitOn1 0x2E s
  if parts.getLast? = some [] && parts.length ≤ 1 then false
  else
    match (ipv4Parts s).getLast? with
    | none => false
    | some last => (last ≠ [] && last.all isDigit) || (parseIPv4Number last).isSome

/-- All the values of a list of optional values, if none is missing. -/
def allSome {α : Type} : List (Option α) → Option (List α)
  | [] => some []
  | none :: _ => none
  | some a :: l => (allSome l).map (a :: ·)

/-- Sum of the leading numbers of an IPv4 address, the one at position `i`
weighted by `256 ^ (3 - i)`. -/
def ipv4Front (i : Nat) : List Nat → Nat
  | [] => 0
  | n :: ns => n * 256 ^ (3 - i) + ipv4Front (i + 1) ns

/-- The IPv4 parser. -/
def parseIPv4 (s : List Nat) : Option Nat :=
  let parts := ipv4Parts s
  if 4 < parts.length then none
  else
    match allSome (parts.map parseIPv4Number) with
    | none => none
    | some numbers =>
      match numbers.getLast? with
      | none => none
      | some last =>
        if numbers.dropLast.any (255 < ·) then none
        else if 256 ^ (5 - numbers.length) ≤ last then none
        else some (last + ipv4Front 0 numbers.dropLast)

/-- The host parser for a host that is not "opaque" (the URL is special).
The input is percent-decoded; a decoded domain that is not plain ASCII, or
that has a label starting with `xn--`, is outside this model. -/
def parseDomain (input : List Nat) : Option Host :=
  match input with
  | 0x5B :: _ => none
  | _ =>
    let bytes := percentDecode (input.flatMap utf8Encode)
    if bytes.any (0x7F < ·) then none
    else
      let domain := bytes.map asciiLower
      if (splitOn1 0x2E domain).any (fun l => (js "xn--").isPrefixOf l) then none
      else if domain = [] then none
      else if domain.any isForbiddenDomainCodePoint then none
      else if endsInANumber domain then (parseIPv4 domain).map Host.ipv4
      else some (Host.name domain)

/-- The host parser for the host of a URL that is not special. -/
def parseOtherHost (input : List Nat) : Option Host :=
  match input with
  | 0x5B :: _ => none
  | _ =>
    if input.any isForbiddenHostCodePoint then none
    else some (Host.name (input.flatMap (utf8PercentEncode c0ControlSet)))

/-- The host parser. -/
def parseHost (input : List Nat) (special : Bool) : Option Host :=
  if special then parseDomain input else parseOtherHost input

/-- The host serializer. -/
def Host.serialize : Host → List Nat
  | .name s => s
  | .ipv4 n =>
    decimal (n / 256 ^ 3 % 256) ++ [0x2E] ++ decimal (n / 256 ^ 2 % 256) ++ [0x2E] ++
      decimal (n / 256 % 256) ++ [0x2E] ++ decimal (n % 256)

/-- The fragment state: everything left is the fragment. -/
def fragmentState (input : List Nat) : List Nat :=
  input.flatMap (utf8PercentEncode fragmentSet)

/-- The query state, entered after `?`: the query runs up to `#` or the end. -/
def queryState (special : Bool) (input : List Nat) : List Nat × Option (List Nat) :=
  let q := input.takeWhile (· != 0x23)
  let query := q.flatMap (utf8PercentEncode (if special then specialQuerySet else querySet))
  match input.dropWhile (· != 0x23) with
  | [] => (query, none)
  | _ :: f => (query, some (fragmentState f))

/-- What follows a path: `?` and a query, `#` and a fragment, or nothing. -/
def tailState (special : Bool) (input : List Nat) : Option (List Nat) × Option (List Nat) :=
  match input with
  | [] => (none, none)
  | c :: rest =>
    if c = 0x3F then (some (queryState special rest).1, (queryState special rest).2)
    else if c = 0x23 then (none, some (fragmentState rest))
    else (none, none)

/-- A single-dot URL path segment: `.` or `%2e`, whatever the case. -/
def isSingleDot (seg : List Nat) : Bool :=
  seg.map asciiLower ∈ [js ".", js "%2e"]

/-- A double-dot URL path segment. -/
def isDoubleDot (seg : List Nat) : Bool :=
  seg.map asciiLower ∈ [js "..", js ".%2e", js "%2e.", js "%2e%2e"]

/-- A Windows drive letter: a letter followed by `:` or `|`. -/
def isWindowsDriveLetter (s : List Nat) : Bool :=
  match s with
  | [a, b] => isAlpha a && (b == 0x3A || b == 0x7C)
  | _ => false

/-- "Shorten a path": drop the last segment, but keep the drive letter of a
file URL. -/
def shortenPath (isFile : Bool) (path : List (List Nat)) : List (List Nat) :=
  match path with
  | [[a, b]] => if isFile && isAlpha a && b == 0x3A then path else []
  | _ => path.dropLast

/-- The end of a path segment in the path state.  `slash` tells whether the
segment ended at a separator (`/`, or `\` in a special URL). -/
def pushSegment (isFile slash : Bool) (buffer : List Nat) (path : List (List Nat)) :
    List (List Nat) :=
  if isDoubleDot buffer then
    if slash then shortenPath isFile path else shortenPath isFile path ++ [[]]
  else if isSingleDot buffer then
    if slash then path else path ++ [[]]
  else if isFile && path = [] && isWindowsDriveLetter buffer then
    path ++ [buffer.take 1 ++ [0x3A]]
  else path ++ [buffer]

/-- The path state: segments are read up to `?`, `#` or the end; the result
is the path and the input from that `?` or `#` on. -/
def pathState (special isFile : Bool) :
    List Nat → List Nat → List (List Nat) → List (List Nat) × List Nat
  | [], buffer, path => (pushSegment isFile false buffer path, [])
  | c :: rest, buffer, path =>
    if c = 0x2F || (special && c = 0x5C) then
      pathState special isFile rest [] (pushSegment isFile true buffer path)
    else if c = 0x3F || c = 0x23 then (pushSegment isFile false buffer path, c :: rest)
    else pathState special isFile rest (buffer ++ utf8PercentEncode pathSet c) path

/-- The path start state. -/
def pathStartState (special isFile : Bool) (input : List Nat) : List (List Nat) × List Nat :=
  match input with
  | [] => if special then pathState special isFile [] [] [] else ([], [])
  | c :: rest =>
    if special then
      if c = 0x2F || c = 0x5C then pathState special isFile rest [] []
      else pathState special isFile (c :: rest) [] []
    else if c = 0x3F || c = 0x23 then ([], c :: rest)
    else if c = 0x2F then pathState special isFile rest [] []
    else pathState special isFile (c :: rest) [] []

/-- The path of a URL that cannot be a base: everything up to `?` or `#`,
a space right before that `?` or `#` being written `%20`. -/
def rawPathState : List Nat → List Nat × List Nat
  | [] => ([], [])
  | c :: rest =>
    if c = 0x3F || c = 0x23 then ([], c :: rest)
    else if c = 0x20 then
      match rest with
      | d :: _ =>
        if d = 0x3F || d = 0x23 then (js "%20" ++ (rawPathState rest).1, (rawPathState rest).2)
        else (0x20 :: (rawPathState rest).1, (rawPathState rest).2)
      | [] => (0x20 :: (rawPathState rest).1, (rawPathState rest).2)
    else (utf8PercentEncode c0ControlSet c ++ (rawPathState rest).1, (rawPathState rest).2)

/-- The part of a list before its last `sep` and the part after it. -/
def splitAtLast (sep : Nat) : List Nat → Option (List Nat × List Nat)
  | [] => none
  | c :: s =>
    match splitAtLast sep s with
    | some (a, b) => some (c :: a, b)
    | none => if c = sep then some ([], s) else none

/-- The host of the host state: the input up to the first `:` outside square
brackets, and what follows that `:`. -/
def hostSplit (inside : Bool) : List Nat → List Nat × Option (List Nat)
  | [] => ([], none)
  | c :: s =>
    if c = 0x3A && !inside then ([], some s)
    else
      let r := hostSplit (if c = 0x5B then true else if c = 0x5D then false else inside) s
      (c :: r.1, r.2)

/-- URL units that end the authority. -/
def isAuthorityEnd (special : Bool) (c : Nat) : Bool :=
  c == 0x2F || c == 0x3F || c == 0x23 || (special && c == 0x5C)

/-- The port state on the text after `:`; the outer `none` is failure. -/
def portState (scheme port : List Nat) : Option (Option Nat) :=
  if port = [] then some none
  else if !port.all isDigit then none
  else
    match parseRadix 10 port with
    | none => none
    | some n =>
      if 65535 < n then none
      else if defaultPort scheme = some n then some none
      else some (some n)

/-- The authority, host and port states followed by the path, query and
fragment; `input` starts right after the slashes that follow the scheme. -/
def authorityState (scheme : List Nat) (special : Bool) (input : List Nat) : Option URL :=
  let authority := input.takeWhile (fun c => !isAuthorityEnd special c)
  let rest := input.dropWhile (fun c => !isAuthorityEnd special c)
  let credentials := (splitAtLast 0x40 authority).map (·.1)
  let hostport := match splitAtLast 0x40 authority with
    | some (_, hp) => hp
    | none => authority
  if credentials.isSome && hostport = [] then none
  else
    let user := (credentials.getD []).takeWhile (· != 0x3A)
    let pass := ((credentials.getD []).dropWhile (· != 0x3A)).drop 1
    let hostText := (hostSplit false hostport).1
    let portText := (hostSplit false hostport).2
    if (portText.isSome || special) && hostText = [] then none
    else
      match parseHost hostText special, portState scheme (portText.getD []) with
      | some host, some port =>
        let pathRest := pathStartState special false rest
        some {
          scheme := scheme
          username := user.flatMap (utf8PercentEncode userinfoSet)
          password := pass.flatMap (utf8PercentEncode userinfoSet)
          host := some host
          port := port
          path := URLPath.list pathRest.1
          query := (tailState special pathRest.2).1
          fragment := (tailState special pathRest.2).2 }
      | _, _ => none

/-- A URL without credentials or port; `pathRest` is what the path state
returned, the path and the input left after it. -/
def pathOnly (scheme : List Nat) (special : Bool) (host : Option Host)
    (pathRest : List (List Nat) × List Nat) : URL :=
  { scheme := scheme, username := [], password := [], host := host, port := none
    path := URLPath.list pathRest.1
    query := (tailState special pathRest.2).1
    fragment := (tailState special pathRest.2).2 }

/-- URL units that end the host of a file URL. -/
def isFileHostEnd (c : Nat) : Bool :=
  c == 0x2F || c == 0x5C || c == 0x3F || c == 0x23

/-- The file, file slash and file host states (no base URL). -/
def fileState (input : List Nat) : Option URL :=
  let empty := some (Host.name [])
  match input with
  | c :: rest =>
    if c = 0x2F || c = 0x5C then
      match rest with
      | d :: rest2 =>
        if d = 0x2F || d = 0x5C then
          let buffer := rest2.takeWhile (fun c => !isFileHostEnd c)
          let after := rest2.dropWhile (fun c => !isFileHostEnd c)
          if isWindowsDriveLetter buffer then
            some (pathOnly (js "file") true empty (pathState true true after buffer []))
          else if buffer = [] then
            some (pathOnly (js "file") true empty (pathStartState true true after))
          else
            match parseHost buffer true with
            | none => none
            | some host =>
              some (pathOnly (js "file") true
                (if host = Host.name (js "localhost") then empty else some host)
                (pathStartState true true after))
        else some (pathOnly (js "file") true empty (pathState true true rest [] []))
      | [] => some (pathOnly (js "file") true empty (pathState true true rest [] []))
    else some (pathOnly (js "file") true empty (pathState true true input [] []))
  | [] => some (pathOnly (js "file") true empty (pathState true true input [] []))

/-- The scheme state: the scheme and the input after its `:`; failure when
the input has no scheme (there is no base URL to fall back on). -/
def schemeState : List Nat → List Nat → Option (List Nat × List Nat)
  | _, [] => none
  | buffer, c :: rest =>
    if isAlpha c || isDigit c || c == 0x2B || c == 0x2D || c == 0x2E then
      schemeState (buffer ++ [asciiLower c]) rest
    else if c = 0x3A then some (buffer, rest)
    else none

/-- The scheme start state. -/
def schemeStartState (input : List Nat) : Option (List Nat × List Nat) :=
  match input with
  | [] => none
  | c :: rest => if isAlpha c then schemeState [asciiLower c] rest else none

/-- A C0 control or space. -/
def isC0ControlOrSpace (c : Nat) : Bool := c ≤ 0x20

/-- An ASCII tab or newline. -/
def isTabOrNewline (c : Nat) : Bool := c == 0x09 || c == 0x0A || c == 0x0D

/-- The input of the basic URL parser as its states read it: without leading
or trailing C0 controls and spaces, and without tabs and newlines. -/
def cleanInput (input : List Nat) : List Nat :=
  (((input.dropWhile isC0ControlOrSpace).reverse.dropWhile isC0ControlOrSpace).reverse).filter
    fun c => !isTabOrNewline c

/-- The states of the basic URL parser, from the scheme start state on,
without a base URL. -/
def parseStates (input : List Nat) : Option URL :=
  match schemeStartState input with
  | none => none
  | some (scheme, rest) =>
    if scheme = js "file" then fileState rest
    else if isSpecialScheme scheme then
      authorityState scheme true (rest.dropWhile (fun c => c == 0x2F || c == 0x5C))
    else
      match rest with
      | 0x2F :: 0x2F :: r => authorityState scheme false r
      | 0x2F :: r => some (pathOnly scheme false none (pathState false false r [] []))
      | _ =>
        some { scheme := scheme, username := [], password := [], host := none, port := none
               path := URLPath.text (rawPathState rest).1
               query := (tailState false (rawPathState rest).2).1
               fragment := (tailState false (rawPathState rest).2).2 }

/-- The basic URL parser on a scalar value string, without a base URL. -/
def basicURLParse (input : List Nat) : Option URL :=
  parseStates (cleanInput input)

/-- `URL.parse` of a JavaScript string: `none` where `new URL` throws. -/
def URL.parse (s : JSString) : Option URL := basicURLParse (toUSV s)

/-- `new URL(s)`: a `TypeError` when `s` does not parse. -/
def URL.new (s : JSString) : Except JSError URL :=
  match URL.parse s with
  | some u => .ok u
  | none => .error (.typeError (js "Invalid URL"))

/-- The `hostname` getter. -/
def URL.hostname (u : URL) : JSString :=
  match u.host with
  | some h => h.serialize
  | none => []

/-- The `host` getter: the host name, and the port when there is one. -/
def URL.hostGetter (u : URL) : JSString :=
  match u.host, u.port with
  | some h, some p => h.serialize ++ [0x3A] ++ decimal p
  | some h, none => h.serialize
  | none, _ => []

/-- The URL path serializer. -/
def URLPath.serialize : URLPath → List Nat
  | .text s => s
  | .list segments => segments.flatMap (fun seg => 0x2F :: seg)

/-- The `pathname` getter. -/
def URL.pathname (u : URL) : JSString := u.path.serialize

/-- One name or value of a query: `+` is a space, then percent-decoding and
UTF-8 decoding. -/
def urlencodedDecode (bytes : List Nat) : JSString :=
  fromUSV (utf8Decode (percentDecode (bytes.map fun b => if b = 0x2B then 0x20 else b)))

/-- The application/x-www-form-urlencoded parser. -/
def urlencodedParse (input : List Nat) : List (JSString × JSString) :=
  (splitOn1 0x26 input).filterMap fun bytes =>
    if bytes = [] then none
    else some (urlencodedDecode (bytes.takeWhile (· != 0x3D)),
               urlencodedDecode ((bytes.dropWhile (· != 0x3D)).drop 1))

/-- One name or value in the application/x-www-form-urlencoded serializer. -/
def urlencodedEncode (s : JSString) : List Nat :=
  ((toUSV s).flatMap utf8Encode).flatMap fun b =>
    if b = 0x20 then [0x2B]
    else if urlencodedSet b then percentEncodeByte b
    else [b]

/-- The application/x-www-form-urlencoded serializer. -/
def urlencodedSerialize : List (JSString × JSString) → List Nat
  | [] => []
  | [(n, v)] => urlencodedEncode n ++ [0x3D] ++ urlencodedEncode v
  | (n, v) :: rest =>
    urlencodedEncode n ++ [0x3D] ++ urlencodedEncode v ++ [0x26] ++ urlencodedSerialize rest

/-- The list behind `url.searchParams`. -/
def URL.searchParams (u : URL) : List (JSString × JSString) :=
  urlencodedParse ((u.query.getD []).flatMap utf8Encode)

/-- `params.get(name)`: the value of the first pair with that name. -/
def searchParamsGet (params : List (JSString × JSString)) (name : JSString) : Option JSString :=
  (params.find? (fun p => p.1 = name)).map (·.2)

/-- `params.has(name)`. -/
def searchParamsHas (params : List (JSString × JSString)) (name : JSString) : Bool :=
  params.any (fun p => p.1 = name)

/-- `url.searchParams.append(name, value)`: the pair is added at the end and
the query of the URL becomes the serialization of the whole list. -/
def URL.searchParamsAppend (u : URL) (name value : JSString) : URL :=
  let serialized := urlencodedSerialize
    (u.searchParams ++ [(fromUSV (toUSV name), fromUSV (toUSV value))])
  { u with query := if serialized = [] then none else some serialized }

/-- The URL serializer, `url.toString()` and `url.href`. -/
def URL.toString (u : URL) : JSString :=
  u.scheme ++ [0x3A] ++
  (match u.host with
   | some h =>
     js "//" ++
     (if u.username ≠ [] || u.password ≠ [] then
        u.username ++ (if u.password ≠ [] then 0x3A :: u.password else []) ++ [0x40]
      else []) ++
     h.serialize ++
     (match u.port with
      | some p => 0x3A :: decimal p
      | none => [])
   | none =>
     match u.path with
     | .list ([] :: _ :: _) => js "/."
     | _ => []) ++
  u.path.serialize ++
  (match u.query with
   | some q => 0x3F :: q
   | none => []) ++
  (match u.fragment with
   | some f => 0x23 :: f
   | none => [])

/-- Number of leading one bits of a byte. -/
def leadingOnes (b : Nat) : Nat :=
  if b < 0x80 then 0 else if b < 0xC0 then 1 else if b < 0xE0 then 2
  else if b < 0xF0 then 3 else if b < 0xF8 then 4 else 5

/-- Where `decodeURIComponent` stands inside an escape `%XY`. -/
inductive EscapePos where
  | outside
  | afterPercent
  | afterHex (high : Nat)

/-- The code point of a complete multi-byte escape sequence, when its bytes
are the UTF-8 encoding of a scalar value. -/
def validUtf8 (octets : List Nat) : Option Nat :=
  match utf8Decode octets with
  | [cp] => if utf8Encode cp = octets && !(0xD800 ≤ cp && cp ≤ 0xDFFF) then some cp else none
  | _ => none

/-- ECMAScript `Decode` with an empty reserved set.  `pending` counts the
escapes still owed to the multi-byte sequence `octets`. -/
def decodeFrom (pos : EscapePos) (pending : Nat) (octets : List Nat) :
    JSString → Option JSString
  | [] =>
    match pos, pending with
    | .outside, 0 => some []
    | _, _ => none
  | c :: s =>
    match pos with
    | .outside =>
      if c = 0x25 then decodeFrom .afterPercent pending octets s
      else if pending = 0 then (decodeFrom .outside 0 [] s).map (c :: ·)
      else none
    | .afterPercent =>
      match hexVal c with
      | some h => decodeFrom (.afterHex h) pending octets s
      | none => none
    | .afterHex h =>
      match hexVal c with
      | none => none
      | some l =>
        let b := 16 * h + l
        if pending = 0 then
          if leadingOnes b = 0 then (decodeFrom .outside 0 [] s).map (b :: ·)
          else if leadingOnes b = 1 || 4 < leadingOnes b then none
          else decodeFrom .outside (leadingOnes b - 1) [b] s
        else if pending = 1 then
          match validUtf8 (octets ++ [b]) with
          | some cp => (decodeFrom .outside 0 [] s).map (utf16Units cp ++ ·)
          | none => none
        else decodeFrom .outside (pending - 1) (octets ++ [b]) s

/-- `decodeURIComponent(s)`: a `URIError` on a malformed escape. -/
def decodeURIComponent (s : JSString) : Except JSError JSString :=
  match decodeFrom .outside 0 [] s with
  | some r => .ok r
  | none => .error (.uriError (js "URI malformed"))

/-! ## `src/utils/parse.js` -/

/-- The class `[^#&?]` of `playlistURLPattern`. -/
def isPlaylistIdUnit (c : Nat) : Bool :=
  !(c == 0x23 || c == 0x26 || c == 0x3F)

/-- Capture group 1 of `url.match(/list=([^#&?]*).*/)`, `none` when the
pattern does not match.  The pattern is not anchored and everything after
`list=` is optional, so the leftmost match starts at the first `list=`; the
group is greedy and takes the longest run of units other than `#`, `&`, `?`. -/
def playlistURLPattern_group1 (url : JSString) : Option JSString :=
  (afterFirst (js "list=") url).map (List.takeWhile isPlaylistIdUnit)

/-- `playlistURLPattern.test(s)`. -/
def playlistURLPattern_test (s : JSString) : Bool :=
  (playlistURLPattern_group1 s).isSome

/-- `getPlaylistId` (parse.js 5-11): `match && match[1]` is falsy both when
there is no match and when the group is the empty string. -/
def getPlaylistId (url : JSString) : Option JSString :=
  match playlistURLPattern_group1 url with
  | some g => if g ≠ [] then some g else none
  | none => none

/-- The class `[a-zA-Z0-9_-]` of `videoIdPattern`. -/
def isVideoIdUnit (c : Nat) : Bool :=
  isAlpha c || isDigit c || c == 0x5F || c == 0x2D

/-- `videoIdPattern.test(s)` for `/^[a-zA-Z0-9_-]{11}$/`. -/
def videoIdPattern_test (s : JSString) : Bool :=
  s.length == 11 && s.all isVideoIdUnit

/-- `validQueryDomains` (parse.js 14). -/
def validQueryDomains : List JSString :=
  [js "youtube.com", js "www.youtube.com", js "m.youtube.com", js "music.youtube.com",
   js "gaming.youtube.com"]

/-- The strings the pattern `validPathDomains` (parse.js 15),
`/^https?:\/\/(youtu\.be\/|(www\.)?youtube\.com\/(embed|v|shorts|live)\/)/`,
matches: one of `http`, `https`, then `://`, then `youtu.be/` or an optional
`www.` with `youtube.com/`, one of the four path words and `/`. -/
def validPathDomains_language : List JSString :=
  [js "http", js "https"].flatMap fun scheme =>
    ([js "youtu.be/"] ++
      ([js "", js "www."].flatMap fun www =>
        [js "embed", js "v", js "shorts", js "live"].map fun word =>
          www ++ js "youtube.com/" ++ word ++ js "/")).map fun rest =>
      scheme ++ js "://" ++ rest

/-- `validPathDomains.test(s)`: the pattern is anchored at the start only, so
it matches when `s` starts with one of its strings. -/
def validPathDomains_test (s : JSString) : Bool :=
  validPathDomains_language.any fun p => p.isPrefixOf s

/-- The end of `getVideoId` (parse.js 31-40) on the candidate `id`, which is
`null`/`undefined` (`none`) or a string. -/
def checkVideoId (id : Option JSString) : Option JSString :=
  match id with
  | none => none
  | some id =>
    if id = [] then none
    else if !videoIdPattern_test (substring0 id 11) then none
    else some (substring0 id 11)

/-- The part of `getVideoId` that follows `new URL` (parse.js 24-40), on the
record `parsed` that `new URL(link.trim())` returned. -/
def resolveParsed (link : JSString) (parsed : URL) : Option JSString :=
  let v := searchParamsGet parsed.searchParams (js "v")
  if validPathDomains_test (trim link) && (v = none || v = some []) then
    let paths := splitOn1 0x2F parsed.pathname
    checkVideoId (if parsed.hostGetter = js "youtu.be" then paths[1]? else paths[2]?)
  else if parsed.hostname ≠ [] && !validQueryDomains.contains parsed.hostname then none
  else checkVideoId v

/-- `getVideoId` (parse.js 13-41).  The result is the returned value
(`none` for `null`), or the exception that `new URL` throws. -/
def getVideoId (link : JSString) : Except JSError (Option JSString) :=
  if videoIdPattern_test (trim link) then .ok (some (trim link))
  else
    match URL.new (trim link) with
    | .error e => .error e
    | .ok parsed => .ok (resolveParsed link parsed)

/-- The class `[<>:"/\\|?*]` of the pattern `invalidChars`. -/
def invalidChars (c : Nat) : Bool :=
  c == 0x3C || c == 0x3E || c == 0x3A || c == 0x22 || c == 0x2F || c == 0x5C ||
  c == 0x7C || c == 0x3F || c == 0x2A

/-- `MAX_FILENAME_LENGTH[os] || MAX_FILENAME_LENGTH.other`, as the number
`substring` ends up using.  The four own keys hold 255 and an unknown key is
`undefined`, which falls back to 255.  A key that names a property inherited
from `Object.prototype` yields a truthy function or object, which
`substring` converts to `NaN` and treats as 0. -/
def MAX_FILENAME_LENGTH (os : JSString) : Nat :=
  if os ∈ [js "constructor", js "hasOwnProperty", js "isPrototypeOf",
      js "propertyIsEnumerable", js "toLocaleString", js "toString", js "valueOf",
      js "__proto__", js "__defineGetter__", js "__defineSetter__",
      js "__lookupGetter__", js "__lookupSetter__"] then 0
  else 255

/-- `parseFileName` (parse.js 51-56). -/
def parseFileName (name os : JSString) : JSString :=
  let cleaned := trim (name.filter fun c => !invalidChars c)
  substring0 cleaned (MAX_FILENAME_LENGTH os)

/-! ## The world outside: file system, console, remote service -/

/-- What the program does that can be seen from outside, in order: a line on
the error console, a request to the remote service, and the calls of the two
download methods of `API` with their arguments. -/
inductive Event where
  | consoleError (text : JSString)
  | downloadAudio (url dirPath : JSString)
  | downloadVideo (url dirPath : JSString)
  | apiGet (endpoint : JSString) (params : List (JSString × JSString))
  | streamGet (url : Option JSString)
  deriving DecidableEq, Repr

/-- A line on the error console. -/
def Event.isConsoleError : Event → Bool
  | .consoleError _ => true
  | _ => false

/-- A call of `downloadAudio` or `downloadVideo`. -/
def Event.isDownloadCall : Event → Bool
  | .downloadAudio _ _ => true
  | .downloadVideo _ _ => true
  | _ => false

/-- The state the program acts on: the directories and files that exist, and
the log of what it has done. -/
structure World where
  dirs : List JSString
  files : List JSString
  log : List Event
  deriving DecidableEq, Repr

/-- Adds an event at the end of the log. -/
def World.emit (w : World) (e : Event) : World := { w with log := w.log ++ [e] }

/-- How a call ends: with a value, with an exception (a rejected promise),
or with `process.exit(code)`. -/
inductive Outcome (α : Type) where
  | ok (value : α)
  | throw (e : JSError)
  | exit (code : Nat)
  deriving DecidableEq, Repr

/-- The fields the program reads of a `/download` or `/download/audio`
answer; `download_url` is `none` when the answer has none. -/
structure Response where
  title : JSString
  download_url : Option JSString
  deriving DecidableEq, Repr

/-- What happens to the streamed download once the destination file is open:
the streaming request fails, the write stream emits `error`, or it emits
`finish`. -/
inductive Transfer where
  | requestFails
  | writerError (err : JSError)
  | finish
  deriving DecidableEq, Repr

/-- The remote service as the program meets it: the answer (or the failure
message) of a GET on an endpoint, and the fate of a streamed download. -/
structure Remote where
  get : JSString → List (JSString × JSString) → Except JSString Response
  transfer : Option JSString → Transfer

/-- A remote service that answers every request successfully, with the same
title and download URL, and whose downloads all finish. -/
def Remote.alwaysOk : Remote where
  get := fun _ _ => .ok { title := js "Some title", download_url := some (js "https://cdn.example/file") }
  transfer := fun _ => .finish

/-- A remote service like `Remote.alwaysOk`, except that the write stream of
every download emits `error`. -/
def Remote.writeFails : Remote where
  get := fun _ _ => .ok { title := js "Some title", download_url := some (js "https://cdn.example/file") }
  transfer := fun _ => .writerError (.error (js "ENOSPC: no space left on device, write"))

/-- A remote service like `Remote.alwaysOk`, except that every streaming
request fails. -/
def Remote.streamFails : Remote where
  get := fun _ _ => .ok { title := js "Some title", download_url := some (js "https://cdn.example/file") }
  transfer := fun _ => .requestFails

/-- A world with no file, no directory and an empty log. -/
def World.empty : World := { dirs := [], files := [], log := [] }

/-- `path.join(dirPath, name)` for a directory path in normal form and a
file name without separators. -/
def pathJoin (dirPath name : JSString) : JSString :=
  if dirPath = [] then name else dirPath ++ js "/" ++ name

/-- `fs.existsSync(path)`. -/
def World.existsSync (w : World) (path : JSString) : Bool :=
  w.dirs.contains path || w.files.contains path

/-- `if (!fs.existsSync(dirPath)) fs.mkdirSync(dirPath, { recursive: true })`. -/
def World.ensureDir (w : World) (dirPath : JSString) : World :=
  if w.existsSync dirPath then w else { w with dirs := w.dirs ++ [dirPath] }

/-- `fs.createWriteStream(filePath)`, taken to open its file: the file
exists from then on. -/
def World.createWriteStream (w : World) (filePath : JSString) : World :=
  if w.files.contains filePath then w else { w with files := w.files ++ [filePath] }

/-- `fs.writeFileSync(filePath, data)`: the file exists afterwards. -/
def World.writeFileSync (w : World) (filePath : JSString) : World :=
  if w.files.contains filePath then w else { w with files := w.files ++ [filePath] }

/-- `fs.unlinkSync(filePath)` on an existing file. -/
def World.unlinkSync (w : World) (filePath : JSString) : World :=
  { w with files := w.files.filter (· ≠ filePath) }

/-! ## `src/utils/api.js` -/

/-- `API.get` (api.js 25-32). -/
def API.get (remote : Remote) (endpoint : JSString) (params : List (JSString × JSString))
    (w : World) : Outcome Response × World :=
  match remote.get endpoint params with
  | .ok data => (.ok data, w.emit (.apiGet endpoint params))
  | .error msg =>
    (.throw (.error (js "API request failed: " ++ msg)), w.emit (.apiGet endpoint params))

/-- The `try`/`catch` that ends both download methods (api.js 114-140 and
156-182), entered once the write stream on `filePath` is open.  The streaming
request is awaited inside the `try`, so its failure reaches the `catch`,
which unlinks the file.  The promise that waits for `finish` or `error` is
returned without `await`, so its rejection is the result of the method and
does not pass through the `catch`. -/
def streamToFile (remote : Remote) (downloadUrl : Option JSString) (filePath : JSString)
    (w : World) : Outcome JSString × World :=
  match remote.transfer downloadUrl with
  | .requestFails =>
    (.throw (.error (js "Download failed: ")), (w.emit (.streamGet downloadUrl)).unlinkSync filePath)
  | .writerError err => (.throw err, w.emit (.streamGet downloadUrl))
  | .finish => (.ok filePath, w.emit (.streamGet downloadUrl))

/-- `API.downloadVideo` (api.js 92-141).  `platform` is `process.platform`. -/
def API.downloadVideo (remote : Remote) (platform url dirPath : JSString) (w0 : World) :
    Outcome JSString × World :=
  let w := w0.emit (.downloadVideo url dirPath)
  match URL.new url with
  | .error e => (.throw e, w)
  | .ok parsed =>
    match searchParamsGet parsed.searchParams (js "quality") with
    | none => (.throw (.error (js "Quality parameter is required in the URL.")), w)
    | some q =>
      if q = [] then (.throw (.error (js "Quality parameter is required in the URL.")), w)
      else
        let w1 := w.ensureDir dirPath
        let quality := q.filter isDigit
        match decodeURIComponent url with
        | .error e => (.throw e, w1)
        | .ok decoded =>
          match API.get remote (js "/download")
              [(js "url", decoded), (js "resolution", quality), (js "mode", js "url")] w1 with
          | (.throw e, w2) => (.throw e, w2)
          | (.exit c, w2) => (.exit c, w2)
          | (.ok response, w2) =>
            if response.download_url = none || response.download_url = some [] then
              (.exit 1, w2.emit (.consoleError (js "Failed to retrieve download URL.")))
            else
              let filePath := pathJoin dirPath
                (parseFileName response.title platform ++ js " " ++ quality ++ js ".mp4")
              streamToFile remote response.download_url filePath
                (w2.createWriteStream filePath)

/-- `API.downloadAudio` (api.js 143-183). -/
def API.downloadAudio (remote : Remote) (platform url dirPath : JSString) (w0 : World) :
    Outcome JSString × World :=
  let w1 := (w0.emit (.downloadAudio url dirPath)).ensureDir dirPath
  match decodeURIComponent url with
  | .error e => (.throw e, w1)
  | .ok decoded =>
    match API.get remote (js "/download/audio") [(js "url", decoded), (js "mode", js "url")] w1 with
    | (.throw e, w2) => (.throw e, w2)
    | (.exit c, w2) => (.exit c, w2)
    | (.ok response, w2) =>
      let filePath := pathJoin dirPath (parseFileName response.title platform ++ js ".mp3")
      streamToFile remote response.download_url filePath (w2.createWriteStream filePath)

/-! ## `src/index.js`: the main action -/

/-- The options of the main command that the download path reads. -/
structure Options where
  link : Option JSString
  playlist : Option JSString
  quality : JSString
  audio : Bool
  output : JSString
  deriving DecidableEq, Repr

/-- A line terminator, which `.` of a regular expression does not match. -/
def isLineTerminator (c : Nat) : Bool :=
  c == 0x0A || c == 0x0D || c == 0x2028 || c == 0x2029

/-- Capture group 2 of `s.match(/^q(uality)?=(.*)/)`, `none` when the pattern
does not match: `s` starts with `quality=` or with `q=`, and the group is
what follows up to the first line terminator. -/
def qualityPattern_group2 (s : JSString) : Option JSString :=
  if (js "quality=").isPrefixOf s then some ((s.drop 8).takeWhile fun c => !isLineTerminator c)
  else if (js "q=").isPrefixOf s then some ((s.drop 2).takeWhile fun c => !isLineTerminator c)
  else none

/-- The callback of `links.map` in the batch branch (index.js 111-123), run
on the lines in order.  `optionsLink` is `options.link`, still the path of the
batch file while the lines are mapped; `quality` is `options.quality`.  The
result is the mapped array and the final `options.quality`, or the exception
of `getVideoId`. -/
def mapBatchLines (optionsLink : JSString) :
    List JSString → Nat → JSString → Except JSError (List (Option JSString) × JSString)
  | [], _, quality => .ok ([], quality)
  | line :: rest, index, quality =>
    match getVideoId line with
    | .error e => .error e
    | .ok id =>
      let quality2 :=
        match qualityPattern_group2 optionsLink with
        | some g => if id = none && index = 0 && quality = [] then trim g else quality
        | none => quality
      match mapBatchLines optionsLink rest (index + 1) quality2 with
      | .error e => .error e
      | .ok (ids, quality3) => .ok (id :: ids, quality3)

/-- The batch branch (index.js 102-124) on the content of the file: the new
`options.link` and `options.quality`. -/
def readBatch (optionsLink quality fileContent : JSString) (w : World) :
    Outcome (List JSString × JSString) × World :=
  let links := (splitOn1 0x0A fileContent).filter fun link => trim link ≠ []
  if links = [] then
    (.exit 1, w.emit (.consoleError (js "The provided file is empty or contains no valid links.")))
  else
    match mapBatchLines optionsLink links 0 quality with
    | .error e => (.throw e, w)
    | .ok (ids, quality2) => (.ok (ids.filterMap id, quality2), w)

/-- One download job, the callback of `options.link.map` (index.js 183-207).
An exception of `getVideoId` is raised outside the `try` and rejects the
job; one raised inside the `try` is caught and its message printed. -/
def downloadJob (remote : Remote) (platform : JSString) (options : Options) (link : JSString)
    (w : World) : Outcome Unit × World :=
  match getVideoId link with
  | .error e => (.throw e, w)
  | .ok none => (.ok (), w.emit (.consoleError (js "Invalid YouTube link: " ++ link)))
  | .ok (some _) =>
    let r :=
      if options.quality = js "audio" || options.audio || includes link (js "music.") then
        API.downloadAudio remote platform link options.output w
      else
        match URL.new link with
        | .error e => (.throw e, w)
        | .ok url =>
          let url2 :=
            if !searchParamsHas url.searchParams (js "quality") ||
                !searchParamsHas url.searchParams (js "q") then
              url.searchParamsAppend (js "quality") options.quality
            else url
          API.downloadVideo remote platform url2.toString options.output w
    match r with
    | (.throw e, w2) => (.ok (), w2.emit (.consoleError e.message))
    | (.exit c, w2) => (.exit c, w2)
    | (.ok _, w2) => (.ok (), w2)

/-- `await Promise.all(options.link.map(job))` (index.js 183-209).  The jobs
share nothing but the file system and the console, and they are run here one
after the other, in the order of the list.  A rejected job does not stop the
others; the first rejection is the one `Promise.all` rejects with, and it
leaves the action as an exception (what the runtime then does with the
rejected action is not part of the model).  `process.exit` ends everything. -/
def downloadPromises (remote : Remote) (platform : JSString) (options : Options) :
    List JSString → World → Outcome Unit × World
  | [], w => (.ok (), w)
  | link :: rest, w =>
    match downloadJob remote platform options link w with
    | (.exit c, w2) => (.exit c, w2)
    | (.throw e, w2) =>
      match downloadPromises remote platform options rest w2 with
      | (.exit c, w3) => (.exit c, w3)
      | (_, w3) => (.throw e, w3)
    | (.ok _, w2) => downloadPromises remote platform options rest w2

/-- The playlist branch (index.js 47-93), which always ends the process; the
answer of the service is taken to have the fields of a playlist, so that
printing it and writing `playlist.txt` go through. -/
def playlistBranch (remote : Remote) (playlist : JSString) (w : World) :
    Outcome Unit × World :=
  match getPlaylistId playlist with
  | none =>
    (.exit 1, w.emit (.consoleError (js "Could not extract playlist ID from the provided link.")))
  | some playlistId =>
    match API.get remote (js "/info")
        [(js "url", js "https://www.youtube.com/playlist?list=" ++ playlistId)] w with
    | (.ok _, w2) => (.exit 0, w2.writeFileSync (js "playlist.txt"))
    | (.throw e, w2) => (.exit 1, w2.emit (.consoleError e.message))
    | (.exit c, w2) => (.exit c, w2)

/-- The action of the main command (index.js 45-210) for an invocation
without `--info`.  `readTxt path` is the content of `path` when it names an
existing regular file with the extension `.txt`, else `none`. -/
def mainAction (remote : Remote) (platform : JSString) (readTxt : JSString → Option JSString)
    (options : Options) (w : World) : Outcome Unit × World :=
  let linkIsPlaylist := playlistURLPattern_test (options.link.getD (js "undefined"))
  if linkIsPlaylist then
    playlistBranch remote (options.link.getD []) w
  else if options.playlist.isSome && options.playlist ≠ some [] then
    playlistBranch remote (options.playlist.getD []) w
  else
    match options.link with
    | none =>
      (.exit 1, w.emit (.consoleError
        (js "You must provide a YouTube link using the -l or --link option.")))
    | some link =>
      if link = [] then
        (.exit 1, w.emit (.consoleError
          (js "You must provide a YouTube link using the -l or --link option.")))
      else
        match readTxt link with
        | some content =>
          match readBatch link options.quality content w with
          | (.ok (ids, quality), w2) =>
            downloadPromises remote platform { options with quality := quality } ids w2
          | (.throw e, w2) => (.throw e, w2)
          | (.exit c, w2) => (.exit c, w2)
        | none => downloadPromises remote platform options [link] w

/-! ## Notions used in the statements and proofs -/

/-- A list whose first unit, if any, is not white space. -/
def StartsClean (l : JSString) : Prop := ∀ c, l.head? = some c → isWhiteSpace c = false

/-- A list whose last unit, if any, is not white space. -/
def EndsClean (l : JSString) : Prop := ∀ c, l.getLast? = some c → isWhiteSpace c = false

/-- The shape of what may follow the path in the URLs of interest: nothing,
or `?` and a query. -/
def QueryTail (r : List Nat) : Prop := r = [] ∨ ∃ q, r = 0x3F :: q

/-- A unit that no step of trimming or cleaning touches: printable ASCII. -/
def Printable (c : Nat) : Prop := 0x21 ≤ c ∧ c ≤ 0x7E

/-- The URL record the parser builds for a special URL without credentials
or port, from what the path state returned. -/
def specialRecord (scheme host : List Nat) (pathRest : List (List Nat) × List Nat) : URL :=
  { scheme := scheme, username := [], password := [], host := some (Host.name host), port := none
    path := URLPath.list pathRest.1
    query := (tailState true pathRest.2).1
    fragment := (tailState true pathRest.2).2 }

/-- The options of an invocation `ytdl -l <link>` with the defaults of the
other options: quality `720`, no `--audio`, output folder `downloads`. -/
def defaultOptions (link : JSString) : Options :=
  { link := some link, playlist := none, quality := js "720", audio := false,
    output := js "downloads" }

/-- A file system view with the single batch file `links.txt`. -/
def onlyLinksTxt (content : JSString) : JSString → Option JSString :=
  fun path => if path = js "links.txt" then some content else none

/-- A file system view without batch files. -/
def noTxt : JSString → Option JSString := fun _ => none

/-! ## `parseFileName`: idempotence (C5) -/

theorem trimEnd_eq_rdropWhile (s : JSString) : trimEnd s = s.rdropWhile isWhiteSpace := rfl

theorem startsClean_dropWhile (l : JSString) : StartsClean (l.dropWhile isWhiteSpace) := by
  intro c hc
  have h := List.head?_dropWhile_not isWhiteSpace l
  rw [hc] at h
  simpa using h

theorem startsClean_of_prefix {a b : JSString} (h : a <+: b) (hb : StartsClean b) :
    StartsClean a := by
  intro c hc
  obtain ⟨t, rfl⟩ := h
  cases a with
  | nil => simp at hc
  | cons x xs =>
    simp at hc
    exact hb c (by simp [hc])

theorem dropWhile_of_startsClean {l : JSString} (h : StartsClean l) :
    l.dropWhile isWhiteSpace = l := by
  cases l with
  | nil => rfl
  | cons x xs =>
    have hx := h x (by simp)
    simp [List.dropWhile, hx]

theorem trimEnd_eq_self_iff (l : JSString) : trimEnd l = l ↔ EndsClean l := by
  rw [trimEnd_eq_rdropWhile, List.rdropWhile_eq_self_iff]
  constructor
  · intro h c hc
    have hne : l ≠ [] := by
      intro h0
      simp [h0] at hc
    have := h hne
    rw [List.getLast?_eq_getLast _ hne] at hc
    simp at hc
    rw [hc] at this
    simpa using this
  · intro h hne
    have := h (l.getLast hne) (List.getLast?_eq_getLast _ hne)
    simp [this]

theorem startsClean_trim (s : JSString) : StartsClean (trim s) :=
  startsClean_of_prefix (by rw [trim, trimEnd_eq_rdropWhile]; exact List.rdropWhile_prefix _ _)
    (startsClean_dropWhile s)

theorem endsClean_trim (s : JSString) : EndsClean (trim s) := by
  rw [← trimEnd_eq_self_iff, trim, trimEnd_eq_rdropWhile, trimEnd_eq_rdropWhile]
  exact List.rdropWhile_idempotent _ _

theorem trim_eq_self_iff {l : JSString} (h : StartsClean l) : trim l = l ↔ EndsClean l := by
  rw [trim, dropWhile_of_startsClean h, trimEnd_eq_self_iff]

theorem parseFileName_startsClean (s os : JSString) : StartsClean (parseFileName s os) :=
  startsClean_of_prefix (List.take_prefix _ _) (startsClean_trim _)

theorem filter_parseFileName (s os : JSString) :
    (parseFileName s os).filter (fun c => !invalidChars c) = parseFileName s os := by
  rw [List.filter_eq_self]
  intro c hc
  have h1 : c ∈ trim (s.filter fun c => !invalidChars c) := List.mem_of_mem_take hc
  have h2 : c ∈ (s.filter fun c => !invalidChars c).dropWhile isWhiteSpace := by
    rw [trim, trimEnd_eq_rdropWhile] at h1
    exact (List.rdropWhile_prefix _ _).subset h1
  have h3 : c ∈ s.filter fun c => !invalidChars c := (List.dropWhile_suffix _).subset h2
  exact (List.mem_filter.mp h3).2

/-- Applying `parseFileName` twice: the second pass only trims the end. -/
theorem parseFileName_twice (s os : JSString) :
    parseFileName (parseFileName s os) os =
      (trimEnd (parseFileName s os)).take (MAX_FILENAME_LENGTH os) := by
  conv_lhs => rw [parseFileName]
  simp only [substring0]
  rw [filter_parseFileName, trim, dropWhile_of_startsClean (parseFileName_startsClean s os)]

theorem parseFileName_length_le (s os : JSString) :
    (parseFileName s os).length ≤ MAX_FILENAME_LENGTH os := by
  simp [parseFileName, substring0, List.length_take]

theorem parseFileName_idem_iff (s os : JSString) :
    parseFileName (parseFileName s os) os = parseFileName s os ↔ EndsClean (parseFileName s os) := by
  rw [parseFileName_twice]
  constructor
  · intro h
    rw [← trimEnd_eq_self_iff]
    have hp : trimEnd (parseFileName s os) <+: parseFileName s os := by
      rw [trimEnd_eq_rdropWhile]; exact List.rdropWhile_prefix _ _
    have hlen : (parseFileName s os).length ≤ (trimEnd (parseFileName s os)).length := by
      have := congrArg List.length h
      rw [List.length_take] at this
      omega
    exact hp.eq_of_length_le hlen
  · intro h
    rw [(trimEnd_eq_self_iff _).mpr h]
    exact List.take_of_length_le (parseFileName_length_le s os)

/-- C5 (amended).  `parseFileName` applied twice gives the result of applying
it once exactly when that result does not end in a white-space unit; this is
so in particular when the cleaned and trimmed name is no longer than the
maximum length, so that nothing is cut off. -/
theorem parseFileName_idempotent_spec (s os : JSString) :
    (parseFileName (parseFileName s os) os = parseFileName s os ↔
      ∀ c, (parseFileName s os).getLast? = some c → isWhiteSpace c = false) ∧
    ((trim (s.filter fun c => !invalidChars c)).length ≤ MAX_FILENAME_LENGTH os →
      parseFileName (parseFileName s os) os = parseFileName s os) := by
  refine ⟨parseFileName_idem_iff s os, fun h => ?_⟩
  rw [parseFileName_idem_iff]
  have : parseFileName s os = trim (s.filter fun c => !invalidChars c) := by
    simp only [parseFileName, substring0]
    exact List.take_of_length_le h
  rw [this]
  exact endsClean_trim _

/-- C5 (counterexample).  The name `a`, 254 spaces, `b` is 256 units long; the
first pass cuts it to `a` and 254 spaces, and the second pass trims that to
`a`. -/
theorem parseFileName_not_idempotent :
    parseFileName (parseFileName (js "a" ++ List.replicate 254 0x20 ++ js "b") (js "linux")) (js "linux")
      ≠ parseFileName (js "a" ++ List.replicate 254 0x20 ++ js "b") (js "linux") := by
  decide

/-! ## `getPlaylistId` (C4) -/

/-- `afterFirst` finds the leftmost occurrence. -/
theorem afterFirst_eq_some (needle : JSString) (hn : needle ≠ []) :
    ∀ (s pre post : JSString), s = pre ++ needle ++ post →
      (∀ pre2 post2, s = pre2 ++ needle ++ post2 → pre.length ≤ pre2.length) →
      afterFirst needle s = some post := by
  intro s
  induction s with
  | nil =>
    intro pre post h _
    have : needle = [] := by
      have := congrArg List.length h
      simp at this
      exact List.length_eq_zero.mp (by omega)
    exact absurd this hn
  | cons c s ih =>
    intro pre post h hmin
    rw [afterFirst]
    by_cases hp : needle.isPrefixOf (c :: s) = true
    · rw [if_pos hp]
      obtain ⟨t, ht⟩ := List.isPrefixOf_iff_prefix.mp hp
      have h0 := hmin [] t (by simp [ht])
      have hpre : pre = [] := List.length_eq_zero.mp (Nat.le_zero.mp h0)
      subst hpre
      simp at h
      rw [h]
      simp
    · rw [if_neg hp]
      cases pre with
      | nil =>
        exfalso
        apply hp
        rw [List.isPrefixOf_iff_prefix]
        exact ⟨post, by simp [h]⟩
      | cons a pre1 =>
        simp at h
        apply ih pre1 post (by simp [h.2])
        intro pre2 post2 h2
        have := hmin (c :: pre2) post2 (by simp [h2])
        simpa using this

theorem afterFirst_eq_none (needle : JSString) (hn : needle ≠ []) :
    ∀ s : JSString, ¬ needle <:+: s → afterFirst needle s = none := by
  intro s
  induction s with
  | nil =>
    intro _
    simp [afterFirst, hn]
  | cons c s ih =>
    intro h
    rw [afterFirst]
    have hp : ¬ needle.isPrefixOf (c :: s) = true := by
      intro hp
      exact h (List.isPrefixOf_iff_prefix.mp hp).isInfix
    rw [if_neg hp]
    apply ih
    intro hin
    apply h
    obtain ⟨a, b, hab⟩ := hin
    exact ⟨c :: a, b, by simp [← hab]⟩

theorem takeWhile_run (p : Nat → Bool) (v rest : List Nat) (hv : ∀ c ∈ v, p c = true)
    (hrest : ∀ c, rest.head? = some c → p c = false) : (v ++ rest).takeWhile p = v := by
  induction v with
  | nil =>
    cases rest with
    | nil => rfl
    | cons r rs => simp [List.takeWhile, hrest r (by simp)]
  | cons a v ih =>
    have ha := hv a (by simp)
    rw [List.cons_append, List.takeWhile_cons_of_pos ha,
      ih (fun c hc => hv c (by simp [hc]))]

/-- C4 (amended).  When `list=` first occurs after `pre` and is followed by
the run `v` of units other than `#`, `&`, `?`, ending at the end of the input
or before one of these three, `getPlaylistId` returns `v` if `v` is not empty
and `null` if it is; it returns `null` when `list=` does not occur; a returned
ID is not empty and holds none of the three terminators; and the playlist URL
of the specification gives `PLabc123`. -/
theorem getPlaylistId_spec :
    (∀ url pre v rest : JSString, url = pre ++ js "list=" ++ (v ++ rest) →
      (∀ pre2 post2, url = pre2 ++ js "list=" ++ post2 → pre.length ≤ pre2.length) →
      (∀ c ∈ v, c ≠ 0x23 ∧ c ≠ 0x26 ∧ c ≠ 0x3F) →
      (∀ c, rest.head? = some c → c = 0x23 ∨ c = 0x26 ∨ c = 0x3F) →
      getPlaylistId url = if v = [] then none else some v) ∧
    (∀ url : JSString, ¬ js "list=" <:+: url → getPlaylistId url = none) ∧
    (∀ url id : JSString, getPlaylistId url = some id →
      id ≠ [] ∧ ∀ c ∈ id, c ≠ 0x23 ∧ c ≠ 0x26 ∧ c ≠ 0x3F) ∧
    getPlaylistId (js "https://www.youtube.com/playlist?list=PLabc123&foo=1")
      = some (js "PLabc123") := by
  have hn : js "list=" ≠ [] := by decide
  refine ⟨?_, ?_, ?_, by decide⟩
  · intro url pre v rest h hmin hv hrest
    have h1 := afterFirst_eq_some (js "list=") hn url pre (v ++ rest) h hmin
    have h2 : (v ++ rest).takeWhile isPlaylistIdUnit = v := by
      apply takeWhile_run
      · intro c hc
        have := hv c hc
        simp [isPlaylistIdUnit, this]
      · intro c hc
        have := hrest c hc
        simp only [isPlaylistIdUnit]
        rcases this with h | h | h <;> simp [h]
    simp only [getPlaylistId, playlistURLPattern_group1, h1, Option.map, h2]
    by_cases hv0 : v = [] <;> simp [hv0]
  · intro url h
    simp [getPlaylistId, playlistURLPattern_group1, afterFirst_eq_none _ hn url h]
  · intro url id h
    simp only [getPlaylistId, playlistURLPattern_group1] at h
    cases hf : afterFirst (js "list=") url with
    | none => simp [hf] at h
    | some post =>
      simp only [hf, Option.map] at h
      by_cases hg : post.takeWhile isPlaylistIdUnit = []
      · simp [hg] at h
      · simp [hg] at h
        subst h
        refine ⟨hg, ?_⟩
        intro c hc
        have := List.mem_takeWhile_imp hc
        simp [isPlaylistIdUnit] at this
        exact ⟨this.1.1, this.1.2, this.2⟩

/-- C4 (counterexample).  The input contains `list=` followed at once by `&`:
the characters up to the terminator are the empty string, and the result is
`null`, not that string. -/
theorem getPlaylistId_empty_value :
    js "list=" <:+: js "https://www.youtube.com/playlist?list=&foo=1" ∧
    getPlaylistId (js "https://www.youtube.com/playlist?list=&foo=1") = none ∧
    getPlaylistId (js "https://www.youtube.com/playlist?list=&foo=1") ≠ some [] := by
  refine ⟨⟨js "https://www.youtube.com/playlist?", js "&foo=1", by decide⟩, by decide, by decide⟩

/-! ## What `new URL` reads of a path-form link -/

/-! ### Lists: stripping and scanning -/

theorem dropWhile_append_cons_neg (p : Nat → Bool) (l : List Nat) (c : Nat) (r : List Nat)
    (hc : p c = false) : (l ++ c :: r).dropWhile p = l.dropWhile p ++ c :: r := by
  induction l with
  | nil => simp [List.dropWhile, hc]
  | cons a l ih =>
    by_cases ha : p a = true
    · simp [List.dropWhile, ha, ih]
    · simp [List.dropWhile, ha]

theorem rdropWhile_append_cons_neg (p : Nat → Bool) (l : List Nat) (c : Nat) (r : List Nat)
    (hc : p c = false) : (l ++ c :: r).rdropWhile p = l ++ c :: r.rdropWhile p := by
  simp only [List.rdropWhile, List.reverse_append, List.reverse_cons, List.append_assoc,
    List.singleton_append]
  rw [dropWhile_append_cons_neg p _ c _ hc]
  simp

theorem strip_plain (p : Nat → Bool) (a r : List Nat) (ha : a ≠ [])
    (hall : ∀ c ∈ a, p c = false) (hq : p 0x3F = false) (hr : QueryTail r) :
    ∃ r2, QueryTail r2 ∧ ((a ++ r).dropWhile p).rdropWhile p = a ++ r2 := by
  have hd : (a ++ r).dropWhile p = a ++ r := by
    cases a with
    | nil => exact absurd rfl ha
    | cons x xs => simp [List.dropWhile, hall x (by simp)]
  rw [hd]
  rcases hr with rfl | ⟨q, rfl⟩
  · refine ⟨[], Or.inl rfl, ?_⟩
    rw [List.append_nil, List.rdropWhile_eq_self_iff]
    intro hne
    simp [hall _ (List.getLast_mem hne)]
  · exact ⟨0x3F :: q.rdropWhile p, Or.inr ⟨_, rfl⟩, rdropWhile_append_cons_neg p a _ q hq⟩

theorem toUSVFrom_append_plain (a r : List Nat) (hall : ∀ c ∈ a, c < 0xD800) :
    toUSVFrom none (a ++ r) = a ++ toUSVFrom none r := by
  induction a with
  | nil => rfl
  | cons x xs ih =>
    have hx := hall x (by simp)
    have h1 : ¬ (0xD800 ≤ x) := by omega
    have h2 : ¬ (0xDC00 ≤ x) := by omega
    simp [toUSVFrom, h1, h2, ih (fun c hc => hall c (by simp [hc]))]

theorem toUSV_queryTail (r : List Nat) (hr : QueryTail r) : QueryTail (toUSV r) := by
  rcases hr with rfl | ⟨q, rfl⟩
  · exact Or.inl rfl
  · exact Or.inr ⟨toUSVFrom none q, by simp [toUSV, toUSVFrom]⟩

theorem filter_append_plain (p : Nat → Bool) (a r : List Nat) (hall : ∀ c ∈ a, p c = true) :
    (a ++ r).filter p = a ++ r.filter p := by
  rw [List.filter_append, List.filter_eq_self.mpr hall]

theorem filter_queryTail (p : Nat → Bool) (hq : p 0x3F = true) (r : List Nat) (hr : QueryTail r) :
    QueryTail (r.filter p) := by
  rcases hr with rfl | ⟨q, rfl⟩
  · exact Or.inl rfl
  · exact Or.inr ⟨q.filter p, by simp [List.filter, hq]⟩

theorem trim_printable (a r : List Nat) (ha : a ≠ []) (hall : ∀ c ∈ a, Printable c)
    (hr : QueryTail r) : ∃ r2, QueryTail r2 ∧ trim (a ++ r) = a ++ r2 := by
  apply strip_plain isWhiteSpace a r ha _ (by decide) hr
  intro c hc
  have := hall c hc
  simp only [Printable] at this
  simp only [isWhiteSpace, Bool.or_eq_false_iff, Bool.and_eq_false_iff, beq_eq_false_iff_ne,
    decide_eq_false_iff_not]
  omega

theorem cleanInput_printable (a r : List Nat) (ha : a ≠ []) (hall : ∀ c ∈ a, Printable c)
    (hr : QueryTail r) : ∃ r2, QueryTail r2 ∧ cleanInput (a ++ r) = a ++ r2 := by
  have h1 : ∀ c ∈ a, isC0ControlOrSpace c = false := by
    intro c hc
    have := hall c hc
    simp only [Printable] at this
    simp only [isC0ControlOrSpace, decide_eq_false_iff_not]
    omega
  obtain ⟨r2, hr2, h2⟩ := strip_plain isC0ControlOrSpace a r ha h1 (by decide) hr
  refine ⟨r2.filter (fun c => !isTabOrNewline c), filter_queryTail _ (by decide) r2 hr2, ?_⟩
  have h3 : cleanInput (a ++ r) = (a ++ r2).filter (fun c => !isTabOrNewline c) := by
    rw [← h2]; rfl
  rw [h3]
  apply filter_append_plain
  intro c hc
  have := hall c hc
  simp only [Printable] at this
  simp only [isTabOrNewline, Bool.not_eq_true', Bool.or_eq_false_iff, beq_eq_false_iff_ne]
  omega

/-- What `new URL` reads of a link that starts with printable ASCII `a` and
goes on with nothing or with `?` and a query. -/
theorem parse_trim_printable (a r : List Nat) (ha : a ≠ []) (hall : ∀ c ∈ a, Printable c)
    (hr : QueryTail r) :
    ∃ r1 r2, QueryTail r1 ∧ QueryTail r2 ∧ trim (a ++ r) = a ++ r1 ∧
      URL.parse (trim (a ++ r)) = parseStates (a ++ r2) := by
  obtain ⟨r1, hr1, h1⟩ := trim_printable a r ha hall hr
  have h2 : toUSV (a ++ r1) = a ++ toUSV r1 :=
    toUSVFrom_append_plain a r1 (fun c hc => by have := hall c hc; simp only [Printable] at this; omega)
  obtain ⟨r2, hr2, h3⟩ := cleanInput_printable a (toUSV r1) ha hall (toUSV_queryTail r1 hr1)
  exact ⟨r1, r2, hr1, hr2, h1, by rw [h1, URL.parse, basicURLParse, h2, h3]⟩

/-- The strings of `validPathDomains`: a scheme, `://` and one of nine
continuations. -/
theorem mem_validPathDomains_language (p : JSString) (hp : p ∈ validPathDomains_language) :
    ∃ scheme ∈ [js "http", js "https"],
    ∃ rest ∈ [js "youtu.be/", js "youtube.com/embed/", js "youtube.com/v/",
        js "youtube.com/shorts/", js "youtube.com/live/", js "www.youtube.com/embed/",
        js "www.youtube.com/v/", js "www.youtube.com/shorts/", js "www.youtube.com/live/"],
      p = scheme ++ js "://" ++ rest := by
  have h9 : ([js "youtu.be/"] ++
      ([js "", js "www."].flatMap fun www =>
        [js "embed", js "v", js "shorts", js "live"].map fun word =>
          www ++ js "youtube.com/" ++ word ++ js "/")) =
      [js "youtu.be/", js "youtube.com/embed/", js "youtube.com/v/",
        js "youtube.com/shorts/", js "youtube.com/live/", js "www.youtube.com/embed/",
        js "www.youtube.com/v/", js "www.youtube.com/shorts/", js "www.youtube.com/live/"] := by
    decide
  rw [validPathDomains_language, h9, List.mem_flatMap] at hp
  obtain ⟨scheme, hs, hp⟩ := hp
  rw [List.mem_map] at hp
  obtain ⟨rest, hr, rfl⟩ := hp
  exact ⟨scheme, hs, rest, hr, rfl⟩

/-- The scheme states on `http://` and `https://` followed by a host. -/
theorem parseStates_scheme (scheme : List Nat) (hs : scheme ∈ [js "http", js "https"])
    (c : Nat) (t : List Nat) (hc : c ≠ 0x2F ∧ c ≠ 0x5C) :
    parseStates (scheme ++ js "://" ++ c :: t) = authorityState scheme true (c :: t) := by
  have hd : (c :: t).dropWhile (fun c => c == 0x2F || c == 0x5C) = c :: t := by
    apply List.dropWhile_cons_of_neg
    simp [hc.1, hc.2]
  simp only [List.mem_cons, List.mem_singleton, List.not_mem_nil, or_false] at hs
  rcases hs with rfl | rfl
  · show authorityState (js "http") true ((c :: t).dropWhile (fun c => c == 0x2F || c == 0x5C)) = _
    rw [hd]
  · show authorityState (js "https") true ((c :: t).dropWhile (fun c => c == 0x2F || c == 0x5C)) = _
    rw [hd]

set_option maxHeartbeats 2000000 in
/-- The authority and host states on the three hosts of `validPathDomains`. -/
theorem authorityState_host (host : List Nat)
    (hh : host ∈ [js "youtu.be", js "youtube.com", js "www.youtube.com"])
    (scheme t : List Nat) :
    authorityState scheme true (host ++ 0x2F :: t) =
      some (specialRecord scheme host (pathState true false t [] [])) := by
  simp only [List.mem_cons, List.mem_singleton, List.not_mem_nil, or_false] at hh
  rcases hh with rfl | rfl | rfl
  · rfl
  · rfl
  · rfl

/-- The path state on the four path words of `validPathDomains`. -/
theorem pathState_word (w : List Nat)
    (hw : w ∈ [js "embed", js "v", js "shorts", js "live"]) (t : List Nat) :
    pathState true false (w ++ 0x2F :: t) [] [] = pathState true false t [] [w] := by
  simp only [List.mem_cons, List.mem_singleton, List.not_mem_nil, or_false] at hw
  rcases hw with rfl | rfl | rfl | rfl
  · rfl
  · rfl
  · rfl
  · rfl

/-- The nine continuations: a host, `/`, and possibly a path word and `/`. -/
theorem pathForm_rest (rest : JSString)
    (hr : rest ∈ [js "youtu.be/", js "youtube.com/embed/", js "youtube.com/v/",
        js "youtube.com/shorts/", js "youtube.com/live/", js "www.youtube.com/embed/",
        js "www.youtube.com/v/", js "www.youtube.com/shorts/", js "www.youtube.com/live/"]) :
    (rest = js "youtu.be" ++ [0x2F]) ∨
    (∃ host ∈ [js "youtube.com", js "www.youtube.com"],
      ∃ w ∈ [js "embed", js "v", js "shorts", js "live"],
        rest = host ++ 0x2F :: (w ++ [0x2F])) := by
  revert rest
  decide

theorem videoIdUnit_cases (c : Nat) (h : isVideoIdUnit c = true) :
    (0x30 ≤ c ∧ c ≤ 0x39) ∨ (0x41 ≤ c ∧ c ≤ 0x5A) ∨ (0x61 ≤ c ∧ c ≤ 0x7A) ∨ c = 0x5F ∨ c = 0x2D := by
  simp only [isVideoIdUnit, isAlpha, isDigit, Bool.or_eq_true, Bool.and_eq_true,
    decide_eq_true_eq, beq_iff_eq] at h
  omega

theorem videoIdUnit_printable (c : Nat) (h : isVideoIdUnit c = true) : Printable c := by
  have := videoIdUnit_cases c h
  simp only [Printable]
  omega

theorem videoId_units (x : JSString) (hx : videoIdPattern_test x = true) :
    x.length = 11 ∧ ∀ c ∈ x, isVideoIdUnit c = true := by
  simp only [videoIdPattern_test, Bool.and_eq_true, beq_iff_eq, List.all_eq_true] at hx
  exact hx

/-- The path state reads the units of a video ID into the buffer. -/
theorem pathState_videoId (special isFile : Bool) (x : List Nat)
    (hx : ∀ c ∈ x, isVideoIdUnit c = true) :
    ∀ (t buffer : List Nat) (path : List (List Nat)),
      pathState special isFile (x ++ t) buffer path = pathState special isFile t (buffer ++ x) path := by
  induction x with
  | nil => intro t buffer path; simp
  | cons c x ih =>
    intro t buffer path
    have hc := videoIdUnit_cases c (hx c (by simp))
    have h1 : c ≠ 0x2F := by omega
    have h2 : c ≠ 0x5C := by omega
    have h3 : c ≠ 0x3F := by omega
    have h4 : c ≠ 0x23 := by omega
    have h5 : utf8PercentEncode pathSet c = [c] := by
      have : pathSet c = false := by
        simp only [pathSet, querySet, c0ControlSet, Bool.or_eq_false_iff, beq_eq_false_iff_ne,
          decide_eq_false_iff_not]
        omega
      simp [utf8PercentEncode, this]
    rw [List.cons_append, pathState]
    simp only [h1, h2, h3, h4, decide_False, Bool.and_false, Bool.or_false, Bool.false_eq_true,
      if_false, h5]
    rw [ih (fun d hd => hx d (by simp [hd]))]
    simp

/-- A video ID is a segment of its own: it is no dot segment and no drive
letter. -/
theorem pushSegment_videoId (x : List Nat) (hx : x.length = 11) (slash : Bool)
    (path : List (List Nat)) : pushSegment false slash x path = path ++ [x] := by
  have h1 : isDoubleDot x = false := by
    simp only [isDoubleDot, decide_eq_false_iff_not, List.mem_cons, List.mem_singleton,
      List.not_mem_nil, or_false]
    intro h
    rcases h with h | h | h | h <;>
    · have := congrArg List.length h
      rw [List.length_map, hx] at this
      revert this
      decide
  have h2 : isSingleDot x = false := by
    simp only [isSingleDot, decide_eq_false_iff_not, List.mem_cons, List.mem_singleton,
      List.not_mem_nil, or_false]
    intro h
    rcases h with h | h <;>
    · have := congrArg List.length h
      rw [List.length_map, hx] at this
      revert this
      decide
  simp [pushSegment, h1, h2]

/-- The path state at the end of the path: the video ID is the last
segment, and what is left is the query tail. -/
theorem pathState_videoId_tail (x : List Nat) (hx : videoIdPattern_test x = true)
    (r : List Nat) (hr : QueryTail r) (path : List (List Nat)) :
    pathState true false (x ++ r) [] path = (path ++ [x], r) := by
  obtain ⟨hlen, hall⟩ := videoId_units x hx
  rw [pathState_videoId true false x hall, List.nil_append]
  rcases hr with rfl | ⟨q, rfl⟩
  · rw [pathState, pushSegment_videoId x hlen]
  · rw [pathState]
    simp [pushSegment_videoId x hlen]

theorem splitOn1_no_sep (sep : Nat) (x : List Nat) (hx : sep ∉ x) : splitOn1 sep x = [x] := by
  induction x with
  | nil => rfl
  | cons c x ih =>
    have hc : c ≠ sep := fun h => hx (by simp [h])
    have := ih (fun h => hx (by simp [h]))
    simp [splitOn1, hc, this]

theorem splitOn1_sep_cons (sep : Nat) (x : List Nat) :
    splitOn1 sep (sep :: x) = [] :: splitOn1 sep x := by
  simp [splitOn1]

theorem splitOn1_append_sep (sep : Nat) (w x : List Nat) (hw : sep ∉ w) :
    splitOn1 sep (w ++ sep :: x) = w :: splitOn1 sep x := by
  induction w with
  | nil => simp [splitOn1]
  | cons c w ih =>
    have hc : c ≠ sep := fun h => hw (by simp [h])
    have := ih (fun h => hw (by simp [h]))
    simp [splitOn1, hc, this]

theorem videoId_no_slash (x : List Nat) (hx : ∀ c ∈ x, isVideoIdUnit c = true) : 0x2F ∉ x := by
  intro h
  have := videoIdUnit_cases _ (hx _ h)
  omega

theorem checkVideoId_videoId (x : List Nat) (hx : videoIdPattern_test x = true) :
    checkVideoId (some x) = some x := by
  have hlen := (videoId_units x hx).1
  have h0 : x ≠ [] := by
    intro h
    rw [h] at hlen
    simp at hlen
  have h1 : substring0 x 11 = x := List.take_of_length_le (by omega)
  simp [checkVideoId, h0, h1, hx]

theorem pathForm_printable : ∀ p ∈ validPathDomains_language,
    p ≠ [] ∧ ∀ c ∈ p, 0x21 ≤ c ∧ c ≤ 0x7E := by
  decide

theorem pathForm_host_facts : ∀ host ∈ [js "youtube.com", js "www.youtube.com"],
    host ≠ js "youtu.be" ∧ host ∈ [js "youtu.be", js "youtube.com", js "www.youtube.com"] ∧
    ∀ c, host.head? = some c → c ≠ 0x2F ∧ c ≠ 0x5C := by
  intro host hh
  simp only [List.mem_cons, List.mem_singleton, List.not_mem_nil, or_false] at hh
  rcases hh with rfl | rfl
  · refine ⟨by decide, by decide, ?_⟩
    intro c hc
    have : c = 0x79 := by
      have h : (js "youtube.com").head? = some 0x79 := by decide
      rw [h] at hc
      exact (Option.some.inj hc).symm
    omega
  · refine ⟨by decide, by decide, ?_⟩
    intro c hc
    have : c = 0x77 := by
      have h : (js "www.youtube.com").head? = some 0x77 := by decide
      rw [h] at hc
      exact (Option.some.inj hc).symm
    omega

theorem pathForm_word_facts : ∀ w ∈ [js "embed", js "v", js "shorts", js "live"], 0x2F ∉ w := by
  decide

/-- What the parser makes of a path-form link: host, path segments and the
query tail handed to the query state. -/
theorem parseStates_pathForm (p x r : List Nat) (hp : p ∈ validPathDomains_language)
    (hx : videoIdPattern_test x = true) (hr : QueryTail r) :
    ∃ (scheme host : List Nat) (ini : List (List Nat)),
      ((host = js "youtu.be" ∧ ini = []) ∨
        (host ≠ js "youtu.be" ∧ ∃ w, ini = [w] ∧ 0x2F ∉ w)) ∧
      parseStates (p ++ x ++ r) = some (specialRecord scheme host (ini ++ [x], r)) := by
  obtain ⟨scheme, hs, rest, hrest, rfl⟩ := mem_validPathDomains_language p hp
  rcases pathForm_rest rest hrest with rfl | ⟨host, hh, w, hw, rfl⟩
  · refine ⟨scheme, js "youtu.be", [], Or.inl ⟨rfl, rfl⟩, ?_⟩
    have e : scheme ++ js "://" ++ (js "youtu.be" ++ [0x2F]) ++ x ++ r =
        scheme ++ js "://" ++ 0x79 :: (js "outu.be" ++ 0x2F :: (x ++ r)) := by
      simp only [List.append_assoc]
      rfl
    rw [e, parseStates_scheme scheme hs _ _ (by decide)]
    have e2 : (0x79 :: (js "outu.be" ++ 0x2F :: (x ++ r))) = js "youtu.be" ++ 0x2F :: (x ++ r) := rfl
    rw [e2, authorityState_host _ (by decide), pathState_videoId_tail x hx r hr]
  · obtain ⟨hne, hmem, hhead⟩ := pathForm_host_facts host hh
    refine ⟨scheme, host, [w], Or.inr ⟨hne, w, rfl, pathForm_word_facts w hw⟩, ?_⟩
    cases host with
    | nil => simp at hh; rcases hh with h | h <;> exact absurd h (by decide)
    | cons c h0 =>
      have hc := hhead c rfl
      have e : scheme ++ js "://" ++ ((c :: h0) ++ 0x2F :: (w ++ [0x2F])) ++ x ++ r =
          scheme ++ js "://" ++ c :: (h0 ++ 0x2F :: (w ++ 0x2F :: (x ++ r))) := by
        simp only [List.append_assoc, List.cons_append, List.nil_append]
      rw [e, parseStates_scheme scheme hs _ _ hc]
      have e2 : c :: (h0 ++ 0x2F :: (w ++ 0x2F :: (x ++ r))) =
          (c :: h0) ++ 0x2F :: (w ++ 0x2F :: (x ++ r)) := rfl
      rw [e2, authorityState_host _ hmem, pathState_word w hw,
        pathState_videoId_tail x hx r hr]

/-! ## `getVideoId` (C1, C2, C3) -/

/-- C2 (amended).  A link made of one of the strings of `validPathDomains`, a
valid 11-character ID `x` and then nothing or `?` and any query resolves to
`x`, provided the query of the parsed URL has no `v` parameter or an empty
one as its first. -/
theorem getVideoId_pathForm (p x rest : JSString) (hp : p ∈ validPathDomains_language)
    (hx : videoIdPattern_test x = true) (hrest : rest = [] ∨ ∃ q, rest = 0x3F :: q)
    (hv : ∀ u, URL.parse (trim (p ++ x ++ rest)) = some u →
      searchParamsGet u.searchParams (js "v") = none ∨
      searchParamsGet u.searchParams (js "v") = some []) :
    getVideoId (p ++ x ++ rest) = .ok (some x) := by
  obtain ⟨hxlen, hxall⟩ := videoId_units x hx
  obtain ⟨hp0, hpall⟩ := pathForm_printable p hp
  have hpx0 : p ++ x ≠ [] := by simp [hp0]
  have hpxall : ∀ c ∈ p ++ x, Printable c := by
    intro c hc
    rcases List.mem_append.mp hc with h | h
    · exact hpall c h
    · exact videoIdUnit_printable c (hxall c h)
  obtain ⟨r1, r2, hr1, hr2, htrim, hparse⟩ := parse_trim_printable (p ++ x) rest hpx0 hpxall hrest
  obtain ⟨scheme, host, ini, hini, hstates⟩ := parseStates_pathForm p x r2 hp hx hr2
  rw [hstates] at hparse
  have hv2 := hv _ hparse
  -- the trimmed link is longer than an ID
  have hnotId : videoIdPattern_test (trim (p ++ x ++ rest)) = false := by
    rw [htrim]
    have hpl : 0 < p.length := List.length_pos.mpr hp0
    simp only [videoIdPattern_test, Bool.and_eq_false_iff, beq_eq_false_iff_ne]
    left
    simp only [List.length_append, hxlen]
    omega
  have hpath : validPathDomains_test (trim (p ++ x ++ rest)) = true := by
    rw [htrim, validPathDomains_test, List.any_eq_true]
    exact ⟨p, hp, by rw [List.isPrefixOf_iff_prefix]; exact ⟨x ++ r1, by simp⟩⟩
  have hcond : (searchParamsGet (specialRecord scheme host (ini ++ [x], r2)).searchParams (js "v") = none ∨
      searchParamsGet (specialRecord scheme host (ini ++ [x], r2)).searchParams (js "v") = some []) := hv2
  have hsplit : (if (specialRecord scheme host (ini ++ [x], r2)).hostGetter = js "youtu.be"
      then (splitOn1 0x2F (specialRecord scheme host (ini ++ [x], r2)).pathname)[1]?
      else (splitOn1 0x2F (specialRecord scheme host (ini ++ [x], r2)).pathname)[2]?) = some x := by
    have hg : (specialRecord scheme host (ini ++ [x], r2)).hostGetter = host := rfl
    have hnx := videoId_no_slash x hxall
    rcases hini with ⟨rfl, rfl⟩ | ⟨hne, w, rfl, hw⟩
    · have hpn : (specialRecord scheme (js "youtu.be") ([] ++ [x], r2)).pathname = 0x2F :: x := by
        simp [specialRecord, URL.pathname, URLPath.serialize]
      rw [hg, hpn, if_pos rfl, splitOn1_sep_cons, splitOn1_no_sep _ _ hnx]
      rfl
    · have hpn : (specialRecord scheme host ([w] ++ [x], r2)).pathname = 0x2F :: (w ++ 0x2F :: x) := by
        simp [specialRecord, URL.pathname, URLPath.serialize]
      rw [hg, hpn, if_neg hne, splitOn1_sep_cons, splitOn1_append_sep _ _ _ hw,
        splitOn1_no_sep _ _ hnx]
      rfl
  rw [getVideoId, if_neg (by rw [hnotId]; decide), URL.new, hparse]
  simp only [resolveParsed, hpath, Bool.true_and]
  rw [if_pos (by simpa using hcond), hsplit, checkVideoId_videoId x hx]

/-- A property of the parsed URL, checked by evaluation. -/
theorem forall_of_all {o : Option URL} {P : URL → Prop} [DecidablePred P]
    (h : o.all (fun u => decide (P u)) = true) : ∀ u, o = some u → P u := by
  intro u hu
  subst hu
  simpa using h

/-- C2 (witness).  The link `https://youtu.be/dQw4w9WgXcQ?t=5` of the
specification. -/
theorem getVideoId_pathForm_witness :
    getVideoId (js "https://youtu.be/" ++ js "dQw4w9WgXcQ" ++ js "?t=5")
      = .ok (some (js "dQw4w9WgXcQ")) :=
  getVideoId_pathForm (js "https://youtu.be/") (js "dQw4w9WgXcQ") (js "?t=5") (by decide)
    (by decide) (Or.inr ⟨js "t=5", by decide⟩) (forall_of_all (by decide))

/-- C2 (counterexample).  With a non-empty `v` parameter the path segment is
not used: the `youtu.be` link resolves to `null`, and the `embed` link to the
value of `v`, not to the ID of its path. -/
theorem getVideoId_v_before_path :
    js "https://youtu.be/" ∈ validPathDomains_language ∧
    videoIdPattern_test (js "dQw4w9WgXcQ") = true ∧
    getVideoId (js "https://youtu.be/" ++ js "dQw4w9WgXcQ" ++ js "?v=AAAAAAAAAAA") = .ok none ∧
    getVideoId (js "https://youtu.be/" ++ js "dQw4w9WgXcQ" ++ js "?v=AAAAAAAAAAA")
      ≠ .ok (some (js "dQw4w9WgXcQ")) ∧
    getVideoId (js "https://www.youtube.com/embed/" ++ js "dQw4w9WgXcQ" ++ js "?v=AAAAAAAAAAA")
      = .ok (some (js "AAAAAAAAAAA")) := by
  decide

/-- C1 (failing inputs).  `q=480`, `not a link` and the empty string are
neither bare IDs nor URLs, and `getVideoId` throws the `TypeError` of
`new URL` on each of them instead of returning `null`. -/
theorem getVideoId_throws_on_non_url :
    videoIdPattern_test (trim (js "q=480")) = false ∧ URL.parse (trim (js "q=480")) = none ∧
    getVideoId (js "q=480") = .error (.typeError (js "Invalid URL")) ∧
    getVideoId (js "not a link") = .error (.typeError (js "Invalid URL")) ∧
    getVideoId (js "") = .error (.typeError (js "Invalid URL")) := by
  decide

/-- A string without `:` has no scheme. -/
theorem schemeState_no_colon (l : List Nat) (h : 0x3A ∉ l) :
    ∀ buffer, schemeState buffer l = none := by
  induction l with
  | nil => intro buffer; rfl
  | cons c l ih =>
    intro buffer
    have hc : c ≠ 0x3A := fun e => h (by simp [e])
    rw [schemeState, ih (fun e => h (by simp [e]))]
    simp [hc]

theorem toUSV_videoId (x : List Nat) (hx : ∀ c ∈ x, isVideoIdUnit c = true) : toUSV x = x := by
  have := toUSVFrom_append_plain x [] (fun c hc => by
    have := videoIdUnit_cases c (hx c hc)
    omega)
  simpa [toUSV, toUSVFrom] using this

/-- A bare video ID is not a URL. -/
theorem parse_videoId (x : JSString) (hx : videoIdPattern_test x = true) : URL.parse x = none := by
  obtain ⟨_, hall⟩ := videoId_units x hx
  have hsub : ∀ c ∈ cleanInput x, c ∈ x := by
    intro c hc
    have h1 := (List.mem_filter.mp hc).1
    have h2 : c ∈ (x.dropWhile isC0ControlOrSpace) :=
      (List.rdropWhile_prefix _ _).subset h1
    exact (List.dropWhile_suffix _).subset h2
  have hcolon : 0x3A ∉ cleanInput x := by
    intro h
    have := videoIdUnit_cases _ (hall _ (hsub _ h))
    omega
  have hstart : schemeStartState (cleanInput x) = none := by
    cases hcl : cleanInput x with
    | nil => rfl
    | cons c l =>
      rw [hcl] at hcolon
      simp only [schemeStartState]
      rw [schemeState_no_colon l (fun h => hcolon (by simp [h]))]
      simp
  rw [URL.parse, basicURLParse, toUSV_videoId x hall, parseStates, hstart]

/-- C3 (amended).  For a link that does not start with one of the strings of
`validPathDomains`, and whatever URL record `new URL` returns for it, if the
host name of the record is not empty and not in `validQueryDomains` then the
link resolves to `null`, whatever its query holds. -/
theorem getVideoId_foreign_host (link : JSString) (parsed : URL)
    (hhost : parsed.hostname ≠ [] ∧ parsed.hostname ∉ validQueryDomains)
    (hpath : validPathDomains_test (trim link) = false) :
    resolveParsed link parsed = none ∧
    (URL.parse (trim link) = some parsed → getVideoId link = .ok none) := by
  have hres : resolveParsed link parsed = none := by
    simp only [resolveParsed, hpath, Bool.false_and, Bool.false_eq_true, if_false]
    rw [if_pos]
    simp [hhost.1, hhost.2]
  refine ⟨hres, fun hu => ?_⟩
  have hid : ¬ videoIdPattern_test (trim link) = true := by
    intro h
    rw [parse_videoId _ h] at hu
    exact Option.noConfusion hu
  rw [getVideoId, if_neg hid, URL.new, hu]
  simp only [hres]

/-- C3 (witness).  A foreign host with a valid ID in its `v` parameter. -/
theorem getVideoId_foreign_host_witness :
    URL.parse (trim (js "https://example.com/watch?v=dQw4w9WgXcQ")) ≠ none ∧
    getVideoId (js "https://example.com/watch?v=dQw4w9WgXcQ") = .ok none :=
  ⟨by decide,
   (getVideoId_foreign_host (js "https://example.com/watch?v=dQw4w9WgXcQ")
      ((URL.parse (js "https://example.com/watch?v=dQw4w9WgXcQ")).get (by decide))
      (by decide) (by decide)).2 (by decide)⟩

/-- C3 (counterexample).  A URL whose host is empty is not rejected: the
value of its `v` parameter is returned. -/
theorem getVideoId_empty_host :
    (URL.parse (trim (js "file:///watch?v=dQw4w9WgXcQ"))).map URL.hostname = some [] ∧
    validPathDomains_test (trim (js "file:///watch?v=dQw4w9WgXcQ")) = false ∧
    getVideoId (js "file:///watch?v=dQw4w9WgXcQ") = .ok (some (js "dQw4w9WgXcQ")) ∧
    getVideoId (js "file:///watch?v=dQw4w9WgXcQ") ≠ .ok none ∧
    getVideoId (js "youtube:watch?v=dQw4w9WgXcQ") = .ok (some (js "dQw4w9WgXcQ")) := by
  decide

/-! ## Downloads and the main action: what holds -/

/-- X1.  A link that is a bare 11-character ID once trimmed resolves to that
trimmed ID. -/
theorem getVideoId_bare_id (link : JSString) (h : videoIdPattern_test (trim link) = true) :
    getVideoId link = .ok (some (trim link)) := by
  simp [getVideoId, h]

/-- X3.  When the streaming request fails after the destination file has been
created, the download ends with the error `Download failed: ` and the file no
longer exists. -/
theorem stream_failure_removes_file (remote : Remote) (url : Option JSString)
    (filePath : JSString) (w : World) (h : remote.transfer url = .requestFails) :
    (streamToFile remote url filePath (w.createWriteStream filePath)).1
      = .throw (.error (js "Download failed: ")) ∧
    filePath ∉ (streamToFile remote url filePath (w.createWriteStream filePath)).2.files := by
  simp [streamToFile, h, World.unlinkSync, World.emit]

/-- When the write stream emits `error` after the destination file has been
created, the download ends with that error and the file still exists. -/
theorem write_error_keeps_file (remote : Remote) (url : Option JSString)
    (filePath : JSString) (w : World) (err : JSError) (h : remote.transfer url = .writerError err) :
    (streamToFile remote url filePath (w.createWriteStream filePath)).1 = .throw err ∧
    filePath ∈ (streamToFile remote url filePath (w.createWriteStream filePath)).2.files := by
  have hmem : filePath ∈ (w.createWriteStream filePath).files := by
    unfold World.createWriteStream
    by_cases hc : w.files.contains filePath = true
    · rw [if_pos hc]
      simpa using hc
    · rw [if_neg hc]
      simp
  simp only [streamToFile, h, World.emit]
  exact ⟨trivial, hmem⟩

/-- The log of `downloadAudio` starts with its call and holds no call of
`downloadVideo`. -/
theorem downloadAudio_log (remote : Remote) (platform url dirPath : JSString) (w : World) :
    ∃ rest, (API.downloadAudio remote platform url dirPath w).2.log
        = w.log ++ Event.downloadAudio url dirPath :: rest ∧
      ∀ e ∈ rest, ∀ u d, e ≠ Event.downloadVideo u d := by
  have hens : ∀ (v : World) (d : JSString), (v.ensureDir d).log = v.log := by
    intro v d
    unfold World.ensureDir
    split <;> rfl
  have hcws : ∀ (v : World) (f : JSString), (v.createWriteStream f).log = v.log := by
    intro v f
    unfold World.createWriteStream
    split <;> rfl
  unfold API.downloadAudio
  cases hd : decodeURIComponent url with
  | error e => exact ⟨[], by simp [hens, World.emit], by simp⟩
  | ok decoded =>
    simp only [API.get]
    cases hg : remote.get (js "/download/audio") [(js "url", decoded), (js "mode", js "url")] with
    | error m =>
      refine ⟨[.apiGet (js "/download/audio") [(js "url", decoded), (js "mode", js "url")]], ?_, ?_⟩
      · simp [hens, World.emit]
      · simp
    | ok response =>
      simp only [streamToFile]
      refine ⟨[.apiGet (js "/download/audio") [(js "url", decoded), (js "mode", js "url")],
        .streamGet response.download_url], ?_, ?_⟩
      · cases remote.transfer response.download_url <;>
          simp [hens, hcws, World.emit, World.unlinkSync]
      · simp

/-- X2.  A single link that resolves to a video ID and contains `music.` is
handed to `downloadAudio`, whatever the options, and `downloadVideo` is not
called. -/
theorem single_music_link_is_audio (remote : Remote) (platform : JSString) (options : Options)
    (link id : JSString) (w : World) (hid : getVideoId link = .ok (some id))
    (hm : includes link (js "music.") = true) :
    ∃ rest, (downloadJob remote platform options link w).2.log
        = w.log ++ Event.downloadAudio link options.output :: rest ∧
      ∀ e ∈ rest, ∀ u d, e ≠ Event.downloadVideo u d := by
  obtain ⟨rest, hlog, hno⟩ := downloadAudio_log remote platform link options.output w
  unfold downloadJob
  simp only [hid, hm, Bool.or_true, if_true]
  cases hr : API.downloadAudio remote platform link options.output w with
  | mk r w2 =>
    rw [hr] at hlog
    cases r with
    | ok v => exact ⟨rest, hlog, hno⟩
    | exit c => exact ⟨rest, hlog, hno⟩
    | throw e =>
      refine ⟨rest ++ [.consoleError e.message], ?_, ?_⟩
      · simp only [World.emit]
        simp at hlog
        simp [hlog]
      · intro ev hev u d
        rcases List.mem_append.mp hev with h | h
        · exact hno ev h u d
        · simp at h
          simp [h]

/-- X1 (witness). -/
theorem getVideoId_bare_id_witness :
    getVideoId (js " dQw4w9WgXcQ\n") = .ok (some (js "dQw4w9WgXcQ")) :=
  getVideoId_bare_id (js " dQw4w9WgXcQ\n") (by decide)

/-- X2 (witness). -/
theorem single_music_link_is_audio_witness :
    ∃ rest, (downloadJob Remote.alwaysOk (js "linux") (defaultOptions [])
        (js "https://music.youtube.com/watch?v=dQw4w9WgXcQ") World.empty).2.log
        = World.empty.log ++
          Event.downloadAudio (js "https://music.youtube.com/watch?v=dQw4w9WgXcQ")
            (defaultOptions []).output :: rest ∧
      ∀ e ∈ rest, ∀ u d, e ≠ Event.downloadVideo u d :=
  single_music_link_is_audio Remote.alwaysOk (js "linux") (defaultOptions [])
    (js "https://music.youtube.com/watch?v=dQw4w9WgXcQ") (js "dQw4w9WgXcQ") World.empty
    (by decide) (by decide)

/-- X3 (witness). -/
theorem stream_failure_removes_file_witness :
    (streamToFile Remote.streamFails (some (js "https://cdn.example/file"))
        (js "downloads/Some title 720.mp4")
        (World.empty.createWriteStream (js "downloads/Some title 720.mp4"))).1
      = .throw (.error (js "Download failed: ")) ∧
    js "downloads/Some title 720.mp4" ∉
      (streamToFile Remote.streamFails (some (js "https://cdn.example/file"))
        (js "downloads/Some title 720.mp4")
        (World.empty.createWriteStream (js "downloads/Some title 720.mp4"))).2.files :=
  stream_failure_removes_file Remote.streamFails (some (js "https://cdn.example/file"))
    (js "downloads/Some title 720.mp4") World.empty rfl

/-- Cleaning keeps a printable start of the input in place. -/
theorem cleanInput_printable_start (a t : List Nat) (ha : a ≠ [])
    (hall : ∀ c ∈ a, Printable c) : ∃ t2, cleanInput (a ++ t) = a ++ t2 := by
  have h1 : ∀ c ∈ a, isC0ControlOrSpace c = false := by
    intro c hc
    have := hall c hc
    simp only [Printable] at this
    simp only [isC0ControlOrSpace, decide_eq_false_iff_not]
    omega
  have hd : (a ++ t).dropWhile isC0ControlOrSpace = a ++ t := by
    cases a with
    | nil => exact absurd rfl ha
    | cons x xs => simp [List.dropWhile, h1 x (by simp)]
  have hlast : a = a.dropLast ++ [a.getLast ha] := (List.dropLast_append_getLast ha).symm
  have hr : (a ++ t).rdropWhile isC0ControlOrSpace = a ++ t.rdropWhile isC0ControlOrSpace := by
    have := rdropWhile_append_cons_neg isC0ControlOrSpace a.dropLast (a.getLast ha) t
      (h1 _ (List.getLast_mem ha))
    have e : a.dropLast ++ a.getLast ha :: t = a ++ t := by
      conv_rhs => rw [hlast]
      simp
    have e2 : a.dropLast ++ a.getLast ha :: t.rdropWhile isC0ControlOrSpace
        = a ++ t.rdropWhile isC0ControlOrSpace := by
      conv_rhs => rw [hlast]
      simp
    rw [e, e2] at this
    exact this
  refine ⟨(t.rdropWhile isC0ControlOrSpace).filter (fun c => !isTabOrNewline c), ?_⟩
  have h3 : cleanInput (a ++ t) =
      (((a ++ t).dropWhile isC0ControlOrSpace).rdropWhile isC0ControlOrSpace).filter
        (fun c => !isTabOrNewline c) := rfl
  rw [h3, hd, hr]
  apply filter_append_plain
  intro c hc
  have := hall c hc
  simp only [Printable] at this
  simp only [isTabOrNewline, Bool.not_eq_true', Bool.or_eq_false_iff, beq_eq_false_iff_ne]
  omega

/-- A string that starts with `q=` or `quality=` is not a URL: it has no
scheme. -/
theorem parse_directive (s : JSString)
    (h : (js "q=").isPrefixOf s = true ∨ (js "quality=").isPrefixOf s = true) :
    URL.parse s = none := by
  have key : ∀ a ∈ [js "q=", js "quality="], ∀ t, URL.parse (a ++ t) = none := by
    intro a ha t
    have hp : a ≠ [] ∧ ∀ c ∈ a, Printable c := by
      simp only [List.mem_cons, List.mem_singleton, List.not_mem_nil, or_false] at ha
      rcases ha with rfl | rfl <;> exact ⟨by decide, by unfold Printable; decide⟩
    have h2 : toUSV (a ++ t) = a ++ toUSV t :=
      toUSVFrom_append_plain a t (fun c hc => by
        have := hp.2 c hc; simp only [Printable] at this; omega)
    obtain ⟨t2, ht2⟩ := cleanInput_printable_start a (toUSV t) hp.1 hp.2
    rw [URL.parse, basicURLParse, h2, ht2]
    simp only [List.mem_cons, List.mem_singleton, List.not_mem_nil, or_false] at ha
    rcases ha with rfl | rfl
    · rfl
    · rfl
  rcases h with h | h
  · obtain ⟨t, rfl⟩ := List.isPrefixOf_iff_prefix.mp h
    exact key _ (by simp) t
  · obtain ⟨t, rfl⟩ := List.isPrefixOf_iff_prefix.mp h
    exact key _ (by simp) t

/-- A string that starts with `q=` or `quality=` is not a video ID. -/
theorem directive_not_videoId (s : JSString)
    (h : (js "q=").isPrefixOf s = true ∨ (js "quality=").isPrefixOf s = true) :
    videoIdPattern_test s = false := by
  have hmem : 0x3D ∈ s := by
    rcases h with h | h
    · obtain ⟨t, rfl⟩ := List.isPrefixOf_iff_prefix.mp h
      exact List.mem_append_left _ (by decide)
    · obtain ⟨t, rfl⟩ := List.isPrefixOf_iff_prefix.mp h
      exact List.mem_append_left _ (by decide)
  simp only [videoIdPattern_test, Bool.and_eq_false_iff, List.all_eq_false]
  right
  exact ⟨0x3D, hmem, by decide⟩

theorem getVideoId_directive (line : JSString)
    (h : (js "q=").isPrefixOf (trim line) = true ∨ (js "quality=").isPrefixOf (trim line) = true) :
    getVideoId line = .error (.typeError (js "Invalid URL")) := by
  rw [getVideoId, if_neg (by rw [directive_not_videoId _ h]; decide), URL.new,
    parse_directive _ h]

/-- X4.  Reading a batch file whose first non-blank line starts, once trimmed,
with `q=` or `quality=` ends with the `TypeError` of `new URL`: such a line is
neither an ID nor a URL. -/
theorem readBatch_directive (optionsLink quality content line : JSString) (w : World)
    (hfirst : ((splitOn1 0x0A content).filter fun l => trim l ≠ []).head? = some line)
    (h : (js "q=").isPrefixOf (trim line) = true ∨ (js "quality=").isPrefixOf (trim line) = true) :
    readBatch optionsLink quality content w = (.throw (.typeError (js "Invalid URL")), w) := by
  unfold readBatch
  cases hl : (splitOn1 0x0A content).filter fun l => decide (trim l ≠ []) with
  | nil => rw [hl] at hfirst; simp at hfirst
  | cons l rest =>
    rw [hl] at hfirst
    simp at hfirst
    subst hfirst
    simp [mapBatchLines, getVideoId_directive l h]

/-- X4 (witness). -/
theorem readBatch_directive_witness :
    readBatch (js "links.txt") (js "720") (js "q=480\nhttps://youtu.be/dQw4w9WgXcQ\n") World.empty
      = (.throw (.typeError (js "Invalid URL")), World.empty) :=
  readBatch_directive (js "links.txt") (js "720") (js "q=480\nhttps://youtu.be/dQw4w9WgXcQ\n")
    (js "q=480") World.empty (by decide) (Or.inl (by decide))

/-! ## Downloads and the main action: failing inputs (C6 to C10) -/

/-- C6 (failing input).  The batch `q=480`, `https://youtu.be/dQw4w9WgXcQ` read
with the default quality `720`: `getVideoId` throws on the directive line, so
the batch yields no job; and the pattern of the directive is tested on the
path of the batch file, which does not match it. -/
theorem batch_directive_throws :
    readBatch (js "links.txt") (js "720") (js "q=480\nhttps://youtu.be/dQw4w9WgXcQ\n") World.empty
      = (.throw (.typeError (js "Invalid URL")), World.empty) ∧
    mainAction Remote.alwaysOk (js "linux")
        (onlyLinksTxt (js "q=480\nhttps://youtu.be/dQw4w9WgXcQ\n"))
        (defaultOptions (js "links.txt")) World.empty
      = (.throw (.typeError (js "Invalid URL")), World.empty) ∧
    qualityPattern_group2 (js "links.txt") = none := by
  decide

/-- C7 (failing inputs).  A link with its own `quality=480` is handed to
`downloadVideo` with `quality=720` appended; a link with its own `q=480` is
downloaded at the resolution `720` of the default. -/
theorem own_quality_gets_second_quality :
    (mainAction Remote.alwaysOk (js "linux") noTxt
        (defaultOptions (js "https://youtu.be/dQw4w9WgXcQ?quality=480")) World.empty).2.log =
      [.downloadVideo (js "https://youtu.be/dQw4w9WgXcQ?quality=480&quality=720") (js "downloads"),
       .apiGet (js "/download")
         [(js "url", js "https://youtu.be/dQw4w9WgXcQ?quality=480&quality=720"),
          (js "resolution", js "480"), (js "mode", js "url")],
       .streamGet (some (js "https://cdn.example/file"))] ∧
    (mainAction Remote.alwaysOk (js "linux") noTxt
        (defaultOptions (js "https://youtu.be/dQw4w9WgXcQ?q=480")) World.empty).2.log =
      [.downloadVideo (js "https://youtu.be/dQw4w9WgXcQ?q=480&quality=720") (js "downloads"),
       .apiGet (js "/download")
         [(js "url", js "https://youtu.be/dQw4w9WgXcQ?q=480&quality=720"),
          (js "resolution", js "720"), (js "mode", js "url")],
       .streamGet (some (js "https://cdn.example/file"))] := by
  decide

/-- C8 (failing input).  A batch line with `music.` that resolves to a video
ID: the job is given the ID, not the line, takes the video branch, and
`new URL` throws on the bare ID; neither download method is called. -/
theorem batch_music_line_not_audio :
    includes (js "https://music.youtube.com/watch?v=dQw4w9WgXcQ") (js "music.") = true ∧
    getVideoId (js "https://music.youtube.com/watch?v=dQw4w9WgXcQ")
      = .ok (some (js "dQw4w9WgXcQ")) ∧
    mainAction Remote.alwaysOk (js "linux")
        (onlyLinksTxt (js "https://music.youtube.com/watch?v=dQw4w9WgXcQ\n"))
        (defaultOptions (js "links.txt")) World.empty
      = (.ok (), { dirs := [], files := [], log := [.consoleError (js "Invalid URL")] }) ∧
    (mainAction Remote.alwaysOk (js "linux")
        (onlyLinksTxt (js "https://music.youtube.com/watch?v=dQw4w9WgXcQ\n"))
        (defaultOptions (js "links.txt")) World.empty).2.log.filter Event.isDownloadCall = [] := by
  decide

set_option maxRecDepth 10000 in
/-- C9 (failing inputs).  With `not a link` as the invalid reference the
`TypeError` of `getVideoId` leaves the orchestration and no invalid-link
failure is reported; with a bare ID as the valid reference no download is
made for it; and read from a batch file, a foreign-host URL is dropped
without a report and the valid URL, by then a bare ID, is not downloaded. -/
theorem invalid_link_escapes :
    (downloadPromises Remote.alwaysOk (js "linux") (defaultOptions [])
        [js "not a link", js "https://www.youtube.com/watch?v=dQw4w9WgXcQ"] World.empty).1
      = .throw (.typeError (js "Invalid URL")) ∧
    (downloadPromises Remote.alwaysOk (js "linux") (defaultOptions [])
        [js "not a link", js "https://www.youtube.com/watch?v=dQw4w9WgXcQ"] World.empty).2.log.filter
        Event.isConsoleError = [] ∧
    downloadPromises Remote.alwaysOk (js "linux") (defaultOptions [])
        [js "https://example.com/", js "dQw4w9WgXcQ"] World.empty
      = (.ok (),
         { dirs := [], files := [],
           log := [.consoleError (js "Invalid YouTube link: https://example.com/"),
                   .consoleError (js "Invalid URL")] }) ∧
    mainAction Remote.alwaysOk (js "linux")
        (onlyLinksTxt (js "https://example.com/\nhttps://www.youtube.com/watch?v=dQw4w9WgXcQ\n"))
        (defaultOptions (js "links.txt")) World.empty
      = (.ok (), { dirs := [], files := [], log := [.consoleError (js "Invalid URL")] }) := by
  decide

/-- C10 (failing input).  The write stream emits `error` after the file has
been created: both download methods end with that error and the file is
still there. -/
theorem write_error_leaves_file :
    API.downloadVideo Remote.writeFails (js "linux")
        (js "https://youtu.be/dQw4w9WgXcQ?quality=720") (js "downloads") World.empty
      = (.throw (.error (js "ENOSPC: no space left on device, write")),
         { dirs := [js "downloads"], files := [js "downloads/Some title 720.mp4"],
           log := [.downloadVideo (js "https://youtu.be/dQw4w9WgXcQ?quality=720") (js "downloads"),
                   .apiGet (js "/download")
                     [(js "url", js "https://youtu.be/dQw4w9WgXcQ?quality=720"),
                      (js "resolution", js "720"), (js "mode", js "url")],
                   .streamGet (some (js "https://cdn.example/file"))] }) ∧
    (API.downloadAudio Remote.writeFails (js "linux")
        (js "https://youtu.be/dQw4w9WgXcQ") (js "downloads") World.empty).1
      = .throw (.error (js "ENOSPC: no space left on device, write")) ∧
    (API.downloadAudio Remote.writeFails (js "linux")
        (js "https://youtu.be/dQw4w9WgXcQ") (js "downloads") World.empty).2.files
      = [js "downloads/Some title.mp3"] := by
  decide

end Ytdl
